import Mathlib

/-!
Verification development for the execution-graph replay engine
(train/compute/python/tools/eg_replay.py, class ExgrReplayManager).

The engine is shallowly embedded: pure Lean functions mirror the Python
methods, with external collaborators (trace parsing, operator resolution,
tensor value synthesis, device moves) supplied as parameters, exactly at the
interfaces the engine uses them.  Tensor identity keys (the 5-tuple
(tensor_id, storage_id, offset, num_elem, elem_bytes)) are abstracted to a
single Nat, since the engine only ever compares them for equality; the
optional sixth component (the device tag) is kept as a separate String field.
Python dicts are modelled as association lists with replace-in-place
insertion (dinsert), Python sets as duplicate-free lists (setAdd).
-/

namespace ParamReplay

/-- Python substring membership, pattern as a char-list matched at the head. -/
def startsWithChars : List Char → List Char → Bool
  | [], _ => true
  | _ :: _, [] => false
  | a :: as, b :: bs => a == b && startsWithChars as bs

/-- Python substring membership over char lists: pat occurs somewhere in s. -/
def occursInChars (pat : List Char) : List Char → Bool
  | [] => startsWithChars pat []
  | b :: bs => startsWithChars pat (b :: bs) || occursInChars pat bs

/-- Python `pat in s` on strings. -/
def strOccursIn (pat s : String) : Bool := occursInChars pat.data s.data

/-- Dict lookup on an association list (first matching key). -/
def alookup {K V : Type} [DecidableEq K] (l : List (K × V)) (k : K) : Option V :=
  (l.find? (fun p => p.1 == k)).map (fun p => p.2)

/-- Dict assignment: replace the value in place if the key is present,
otherwise append, matching Python dict insertion-order semantics. -/
def dinsert {K V : Type} [DecidableEq K] : List (K × V) → K → V → List (K × V)
  | [], k, v => [(k, v)]
  | (k', v') :: rest, k, v =>
    if k' == k then (k, v) :: rest else (k', v') :: dinsert rest k v

/-- Python `defaultdict(int)` increment `d[k] += 1`. -/
def dincr (l : List (Nat × Nat)) (k : Nat) : List (Nat × Nat) :=
  dinsert l k ((alookup l k).getD 0 + 1)

/-- Python set add: duplicate-free list extension. -/
def setAdd {A : Type} [DecidableEq A] (l : List A) (a : A) : List A :=
  if a ∈ l then l else a :: l

/-- One tensor argument as yielded by get_input_tensors / get_output_tensors:
the type string, the identity 5-tuple (abstracted to a Nat key), the device
tag t_id[5] (present in device-aware traces), and the shape. -/
structure TensorArg where
  dtype : String
  key : Nat
  device : String
  shape : List Nat
deriving DecidableEq

/-- One trace node as the engine reads it.  The external predicates
is_qualified, skip_op, is_fbgemm_forward and is_fbgemm_backward of
eg_replay_utils are recorded as attributes computed at parse time. -/
structure NodeData where
  id : Nat
  name : String
  qualified : Bool
  skips_op : Bool
  fbgemm_forward : Bool
  fbgemm_backward : Bool
  output_types_len : Nat
  inputs : List TensorArg
  outputs : List TensorArg
deriving DecidableEq

/-- The trace tree (Trace Model): a node with ordered children. -/
inductive ENode where
  | mk (data : NodeData) (children : List ENode)

/-- Data of a trace tree node. -/
def ENode.data : ENode → NodeData
  | .mk d _ => d

/-- Children of a trace tree node. -/
def ENode.children : ENode → List ENode
  | .mk _ cs => cs

/-- The skip list of ExgrReplayManager.__init__ (self.skip_node_names). -/
def skip_node_names : List String :=
  ["DataLoader", "aten::set_", "fb::", "c10d::allreduce_", "pyspeech::",
   "All2All_Pooled_Wait", "adagrad"]

/-- Replay-manager state touched by extract_subgraph and build_func.
F is the type of resolved operator callables. -/
structure ExtractState (F : Type) where
  sorted_nodes : List NodeData
  top_tensors : List (Nat × List Nat)
  dependency_permanent : List (Nat × Nat)
  funcs : List (Nat × (Option F × Nat))
  actual_skip_nodes : List String
  actual_skip_nodes_cnt : Nat
  fbgemm_backward_ops : List (F × Nat)
deriving DecidableEq

/-- The empty extract state of a freshly constructed manager. -/
def extract_init {F : Type} : ExtractState F :=
  ⟨[], [], [], [], [], 0, []⟩

/-- ExgrReplayManager.build_func.  bff models the external build_fbgemm_func
(returning forward callable, backward callable and output count), btf models
the external build_torchscript_func (no callable means resolution failed).
The assertion on an empty fbgemm backward stack is the error case. -/
def build_func {F : Type} (bff : NodeData → F × F × Nat)
    (btf : NodeData → Option F × Nat) (s : ExtractState F) (node : NodeData) :
    Except String (ExtractState F × Option F × Nat) :=
  if node.fbgemm_forward then
    let r := bff node
    Except.ok ({ s with fbgemm_backward_ops := s.fbgemm_backward_ops ++ [(r.2.1, node.id)] },
      some r.1, r.2.2)
  else if node.fbgemm_backward then
    match s.fbgemm_backward_ops.getLast? with
    | none => Except.error "assert self.fbgemm_backward_ops"
    | some p =>
      Except.ok ({ s with fbgemm_backward_ops := s.fbgemm_backward_ops.dropLast },
        some p.1, node.output_types_len)
  else
    let r := btf node
    match r.1 with
    | none =>
      Except.ok ({ s with
        actual_skip_nodes := s.actual_skip_nodes ++ [node.name],
        actual_skip_nodes_cnt := s.actual_skip_nodes_cnt + 1 }, none, r.2)
    | some f => Except.ok (s, some f, r.2)

mutual

/-- One child step of the _dfs_traverse closure inside extract_subgraph:
skip-list pruning, qualified-node selection (sorted_nodes append,
top_tensors, dependency counting, operator resolution), or recursion into a
structural node.  Any parse/build error aborts the whole pass (exit(1)). -/
def dfs_child {F : Type} (bff : NodeData → F × F × Nat)
    (btf : NodeData → Option F × Nat) (s : ExtractState F) (c : ENode) :
    Except String (ExtractState F) :=
  match c with
  | .mk d cs =>
    if skip_node_names.any (fun x => strOccursIn x d.name) then
      Except.ok { s with
        actual_skip_nodes := s.actual_skip_nodes ++ [d.name],
        actual_skip_nodes_cnt := s.actual_skip_nodes_cnt + 1 }
    else if d.qualified then
      let s := { s with sorted_nodes := s.sorted_nodes ++ [d] }
      let tt := (d.inputs ++ d.outputs).foldl (fun acc a => setAdd acc a.key) []
      let s := { s with top_tensors := s.top_tensors ++ [(d.id, tt)] }
      let s := d.inputs.foldl
        (fun s a => { s with dependency_permanent := dincr s.dependency_permanent a.key }) s
      match build_func bff btf s d with
      | Except.error e => Except.error e
      | Except.ok r =>
        Except.ok { r.1 with funcs := dinsert r.1.funcs d.id (r.2.1, r.2.2) }
    else
      let s := if d.skips_op then
        { s with
          actual_skip_nodes := s.actual_skip_nodes ++ [d.name],
          actual_skip_nodes_cnt := s.actual_skip_nodes_cnt + 1 }
        else s
      dfs_children bff btf s cs

/-- The for-loop of _dfs_traverse over a child list, threading the state. -/
def dfs_children {F : Type} (bff : NodeData → F × F × Nat)
    (btf : NodeData → Option F × Nat) (s : ExtractState F) :
    List ENode → Except String (ExtractState F)
  | [] => Except.ok s
  | c :: rest =>
    match dfs_child bff btf s c with
    | Except.error e => Except.error e
    | Except.ok s2 => dfs_children bff btf s2 rest

end

/-- Stable insertion of a node into a list sorted ascending by node id,
placed before the first node of id not below its own. -/
def insert_by_id (d : NodeData) : List NodeData → List NodeData
  | [] => [d]
  | e :: rest => if e.id < d.id then e :: insert_by_id d rest else d :: e :: rest

/-- Python sorted(nodes, key=lambda x: x.id): a stable ascending sort. -/
def sort_by_id : List NodeData → List NodeData
  | [] => []
  | d :: rest => insert_by_id d (sort_by_id rest)

/-- ExgrReplayManager.extract_subgraph: DFS from the root, then sort the
selected nodes ascending by node id. -/
def extract_subgraph {F : Type} (bff : NodeData → F × F × Nat)
    (btf : NodeData → Option F × Nat) (root : ENode) :
    Except String (ExtractState F) :=
  match dfs_children bff btf extract_init root.children with
  | Except.error e => Except.error e
  | Except.ok s => Except.ok { s with sorted_nodes := sort_by_id s.sorted_nodes }

/-- Replay-manager state touched by analyze_tensors.  tensors_mapping is
keyed by (node id, identity key, input-role flag); tensor_shapes records,
per identity key, the set of (replay tensor id, shape) pairs seen so far. -/
structure AnalysisState where
  original_unique_tensors : List Nat
  replay_unique_tensor_num : Nat
  tensors_mapping : List ((Nat × Nat × Bool) × Nat)
  replay_tensors_shapes : List (Nat × List Nat)
  tensor_shapes : List (Nat × List (Nat × List Nat))
  tensor_device : List (Nat × String)
deriving DecidableEq

/-- The empty analysis state of a freshly constructed manager. -/
def analysis_init : AnalysisState := ⟨[], 0, [], [], [], []⟩

/-- Recorded (replay tensor id, shape) pairs of one identity key,
self.tensor_shapes[t_id] (empty when the key was never seen). -/
def shapesOf (ts : List (Nat × List (Nat × List Nat))) (k : Nat) :
    List (Nat × List Nat) :=
  (alookup ts k).getD []

/-- Python self.tensor_shapes[t_id].add(entry). -/
def shapesAdd (ts : List (Nat × List (Nat × List Nat))) (k : Nat)
    (e : Nat × List Nat) : List (Nat × List (Nat × List Nat)) :=
  dinsert ts k (shapesOf ts k ++ [e])

/-- The inner helper add_unique_tensor of analyze_tensors: a never-seen key
mints a fresh replay tensor id; a seen key scans its recorded shapes, an
exact shape match reuses that replay tensor id, otherwise a fresh id is
minted under the same key.  The default device -1 of the Python signature is
the string "-1" here; twd is self.tensor_with_device. -/
def add_unique_tensor (twd : Bool) (node_id t_id : Nat) (shape : List Nat)
    (input : Bool) (device : String) (s : AnalysisState) : AnalysisState :=
  if t_id ∈ s.original_unique_tensors then
    match (shapesOf s.tensor_shapes t_id).find? (fun p => p.2 == shape) with
    | some p =>
      { s with tensors_mapping := dinsert s.tensors_mapping (node_id, t_id, input) p.1 }
    | none =>
      let n := s.replay_unique_tensor_num + 1
      { s with
        replay_unique_tensor_num := n
        tensors_mapping := dinsert s.tensors_mapping (node_id, t_id, input) n
        replay_tensors_shapes := dinsert s.replay_tensors_shapes n shape
        tensor_shapes := shapesAdd s.tensor_shapes t_id (n, shape)
        tensor_device := if twd then dinsert s.tensor_device n device else s.tensor_device }
  else
    let n := s.replay_unique_tensor_num + 1
    { original_unique_tensors := setAdd s.original_unique_tensors t_id
      replay_unique_tensor_num := n
      tensors_mapping := dinsert s.tensors_mapping (node_id, t_id, input) n
      replay_tensors_shapes := dinsert s.replay_tensors_shapes n shape
      tensor_shapes := shapesAdd s.tensor_shapes t_id (n, shape)
      tensor_device := if twd then dinsert s.tensor_device n device else s.tensor_device }

/-- One resolved tensor occurrence fed to add_unique_tensor: the node id,
the identity key, the shape, the role flag and the device tag. -/
structure Occ where
  node_id : Nat
  key : Nat
  shape : List Nat
  input : Bool
  device : String
deriving DecidableEq

/-- Step of the first analyze_tensors loop on one occurrence. -/
def occ_step (twd : Bool) (s : AnalysisState) (o : Occ) : AnalysisState :=
  add_unique_tensor twd o.node_id o.key o.shape o.input o.device s

/-- Fold of the first analyze_tensors loop over a list of occurrences,
starting from the fresh manager state. -/
def occs_fold (twd : Bool) (l : List Occ) : AnalysisState :=
  l.foldl (occ_step twd) analysis_init

/-- The tracked occurrences one node contributes to the first
analyze_tensors loop: its inputs then its outputs, keeping only arguments
whose identity key is in the dependency count map.  In device-unaware
traces the default device -1 is used. -/
def node_occs (twd : Bool) (dep : List (Nat × Nat)) (node : NodeData) : List Occ :=
  ((node.inputs.filter (fun a => (alookup dep a.key).isSome)).map
    (fun a => ⟨node.id, a.key, a.shape, true, if twd then a.device else "-1"⟩))
  ++ ((node.outputs.filter (fun a => (alookup dep a.key).isSome)).map
    (fun a => ⟨node.id, a.key, a.shape, false, if twd then a.device else "-1"⟩))

/-- All tracked occurrences of the execution order, in processing order. -/
def all_occs (twd : Bool) (dep : List (Nat × Nat)) (nodes : List NodeData) :
    List Occ :=
  (nodes.map (node_occs twd dep)).flatten

/-- One argument step of the first analyze_tensors loop: resolve the
argument through add_unique_tensor when its identity key is tracked. -/
def analyze_arg_step (twd : Bool) (dep : List (Nat × Nat)) (nid : Nat)
    (input : Bool) (s : AnalysisState) (a : TensorArg) : AnalysisState :=
  if (alookup dep a.key).isSome then
    add_unique_tensor twd nid a.key a.shape input
      (if twd then a.device else "-1") s
  else s

/-- Per-node body of the first analyze_tensors loop: all tracked inputs,
then all tracked outputs. -/
def analyze_node_step (twd : Bool) (dep : List (Nat × Nat))
    (s : AnalysisState) (node : NodeData) : AnalysisState :=
  node.outputs.foldl (analyze_arg_step twd dep node.id false)
    (node.inputs.foldl (analyze_arg_step twd dep node.id true) s)

/-- The first loop of ExgrReplayManager.analyze_tensors: for each node of
sorted_nodes, resolve every tracked input and then every tracked output
through add_unique_tensor. -/
def analyze_loop1 (twd : Bool) (dep : List (Nat × Nat))
    (nodes : List NodeData) : AnalysisState :=
  nodes.foldl (analyze_node_step twd dep) analysis_init

/-- The two sets built by the execution simulation at the end of
analyze_tensors: self.instantiate and the local output_set. -/
structure SimState where
  instantiate : List Nat
  output_set : List Nat
deriving DecidableEq

/-- One tracked input step of the analyze_tensors simulation: a replay
tensor id not yet produced is marked for instantiation. -/
def sim_arg_in (dep : List (Nat × Nat)) (M : List ((Nat × Nat × Bool) × Nat))
    (nid : Nat) (st : SimState) (a : TensorArg) : SimState :=
  if (alookup dep a.key).isSome then
    match alookup M (nid, a.key, true) with
    | some r =>
      if r ∈ st.output_set then st
      else { st with instantiate := setAdd st.instantiate r }
    | none => st
  else st

/-- One tracked output step of the analyze_tensors simulation: the replay
tensor id joins the produced set. -/
def sim_arg_out (dep : List (Nat × Nat)) (M : List ((Nat × Nat × Bool) × Nat))
    (nid : Nat) (st : SimState) (a : TensorArg) : SimState :=
  if (alookup dep a.key).isSome then
    match alookup M (nid, a.key, false) with
    | some r => { st with output_set := setAdd st.output_set r }
    | none => st
  else st

/-- Per-node body of the analyze_tensors simulation loop. -/
def sim_node (dep : List (Nat × Nat)) (M : List ((Nat × Nat × Bool) × Nat))
    (st : SimState) (node : NodeData) : SimState :=
  node.outputs.foldl (sim_arg_out dep M node.id)
    (node.inputs.foldl (sim_arg_in dep M node.id) st)

/-- The second loop of ExgrReplayManager.analyze_tensors: simulate the
execution in order; a tracked input whose replay tensor id was not yet
produced is marked for instantiation, every tracked output is added to the
produced set. -/
def sim_loop (dep : List (Nat × Nat)) (M : List ((Nat × Nat × Bool) × Nat))
    (nodes : List NodeData) : SimState :=
  nodes.foldl (sim_node dep M) ⟨[], []⟩

/-- ExgrReplayManager.analyze_tensors: identity resolution pass followed by
the lifetime simulation pass. -/
def analyze_tensors (twd : Bool) (dep : List (Nat × Nat))
    (nodes : List NodeData) : AnalysisState × SimState :=
  let s := analyze_loop1 twd dep nodes
  (s, sim_loop dep s.tensors_mapping nodes)

/-- External collaborators and preprocessing results used by
allocate_tensors: genF models generate_fbgemm_tensors (value of input_args
at an index), synth models the TORCH_DTYPES_RNG table applied to a dtype
string and a shape (none is the KeyError case), offsetFix models the
in-place embedding-bag offsets workaround on the offsets tensor value. -/
structure AllocCtx (V : Type) where
  genF : NodeData → Nat → V
  synth : String → List Nat → Option V
  offsetFix : NodeData → V → V
  dep : List (Nat × Nat)
  M : List ((Nat × Nat × Bool) × Nat)
  instantiate : List Nat

/-- Replay-manager state written by allocate_tensors. -/
structure AllocState (V : Type) where
  tensor_registry_permanent : List (Nat × Option V)
  unchangeable_intermediate_tensors : List Nat
  cpu_tensor : List Nat
deriving DecidableEq

/-- The empty allocation state of a freshly constructed manager. -/
def alloc_init {V : Type} : AllocState V := ⟨[], [], []⟩

/-- Processing of one input argument (at position idx) of one node inside
allocate_tensors: seed the permanent registry for a tracked, not yet
registered replay tensor id when the node is an embedding-bag or fbgemm
lookup operator or the id must be instantiated; fbgemm-lookup seeds flag the
id unchangeable, embedding-bag seeds flag it unchangeable, pin_memory first
inputs are marked cpu-resident, and a failed dtype lookup stores null. -/
def allocate_input {V : Type} (ctx : AllocCtx V) (node : NodeData)
    (s : AllocState V) (idx : Nat) (a : TensorArg) : AllocState V :=
  match alookup ctx.M (node.id, a.key, true) with
  | none => s
  | some replay_t_id =>
    if (alookup ctx.dep a.key).isSome
        && !(alookup s.tensor_registry_permanent replay_t_id).isSome
        && (node.name == "aten::embedding_bag"
          || strOccursIn "fbgemm::split_embedding_codegen_lookup" node.name
          || replay_t_id ∈ ctx.instantiate) then
      if node.fbgemm_forward then
        let reg := dinsert s.tensor_registry_permanent replay_t_id (some (ctx.genF node idx))
        let s := { s with tensor_registry_permanent := reg }
        if strOccursIn "fbgemm::split_embedding_codegen_lookup" node.name then
          let u := setAdd s.unchangeable_intermediate_tensors replay_t_id
          { s with unchangeable_intermediate_tensors := u }
        else s
      else
        match ctx.synth a.dtype a.shape with
        | some v =>
          let reg := dinsert s.tensor_registry_permanent replay_t_id (some v)
          let s := { s with tensor_registry_permanent := reg }
          let s := if node.name == "aten::embedding_bag" then
            let u := setAdd s.unchangeable_intermediate_tensors replay_t_id
            { s with unchangeable_intermediate_tensors := u }
            else s
          if node.name == "aten::pin_memory" && idx == 0 then
            { s with cpu_tensor := setAdd s.cpu_tensor replay_t_id }
          else s
        | none =>
          let reg := dinsert s.tensor_registry_permanent replay_t_id none
          { s with tensor_registry_permanent := reg }
    else s

/-- The embedding-bag offsets workaround at the end of the per-node body of
allocate_tensors: rewrite the already seeded offsets tensor (third input) in
place to an evenly spaced ramp. -/
def allocate_offsets_fix {V : Type} (ctx : AllocCtx V) (node : NodeData)
    (s : AllocState V) : AllocState V :=
  if node.name == "aten::embedding_bag" then
    match node.inputs[2]? with
    | none => s
    | some a2 =>
      match alookup ctx.M (node.id, a2.key, true) with
      | none => s
      | some r2 =>
        match alookup s.tensor_registry_permanent r2 with
        | some (some v) =>
          let reg := dinsert s.tensor_registry_permanent r2 (some (ctx.offsetFix node v))
          { s with tensor_registry_permanent := reg }
        | _ => s
  else s

/-- The per-node body of ExgrReplayManager.allocate_tensors. -/
def allocate_node {V : Type} (ctx : AllocCtx V) (s : AllocState V)
    (node : NodeData) : AllocState V :=
  allocate_offsets_fix ctx node
    (node.inputs.enum.foldl (fun s p => allocate_input ctx node s p.1 p.2) s)

/-- ExgrReplayManager.allocate_tensors over the execution order. -/
def allocate_tensors {V : Type} (ctx : AllocCtx V) (nodes : List NodeData) :
    AllocState V :=
  nodes.foldl (allocate_node ctx) alloc_init

/-- ExgrReplayManager.reset_registry: derive the working registry from the
permanent registry, moving each non-null value to the target device unless
it is recorded (or marked) cpu-resident.  cudaMove models v.cuda(device). -/
def reset_registry {V : Type} (cudaMove : V → V) (twd : Bool)
    (tensor_device : List (Nat × String)) (cpu_tensor : List Nat)
    (perm : List (Nat × Option V)) : List (Nat × Option V) :=
  if twd then
    perm.map (fun p => (p.1, match p.2 with
      | none => none
      | some v =>
        if alookup tensor_device p.1 == some "cpu" then some v
        else some (cudaMove v)))
  else
    perm.map (fun p => (p.1, match p.2 with
      | none => none
      | some v => if p.1 ∈ cpu_tensor then some v else some (cudaMove v)))

/-- Manager registry fields as seen by reset_registry and the bench loop. -/
structure RegistryState (V : Type) where
  tensor_registry_permanent : List (Nat × Option V)
  tensor_registry : List (Nat × Option V)
  tensor_with_device : Bool
  tensor_device : List (Nat × String)
  cpu_tensor : List Nat
deriving DecidableEq

/-- One call of self.reset_registry() on the manager state. -/
def reset_registry_step {V : Type} (cudaMove : V → V) (s : RegistryState V) :
    RegistryState V :=
  let reg := reset_registry cudaMove s.tensor_with_device s.tensor_device
    s.cpu_tensor s.tensor_registry_permanent
  { s with tensor_registry := reg }

/-- Iterated registry resets with no intervening writes to the permanent
registry. -/
def reset_registry_iter {V : Type} (cudaMove : V → V) :
    Nat → RegistryState V → RegistryState V
  | 0, s => s
  | n + 1, s => reset_registry_iter cudaMove n (reset_registry_step cudaMove s)

/-- Execution context of the Scheduler: exec models the resolved operator
callable applied to the inputs gathered from the working registry, already
flattened to the produced tensor list as run_op does. -/
structure SchedCtx (V F : Type) where
  exec : NodeData → List (Nat × Option V) → List V
  funcs : List (Nat × (Option F × Nat))
  dep : List (Nat × Nat)
  M : List ((Nat × Nat × Bool) × Nat)
  unchangeable : List Nat
  instantiate : List Nat

/-- The output-binding step of run_op for one (declared output tensor,
produced value) pair: bind a tracked output that is neither
unchangeable-intermediate nor must-instantiate, otherwise leave the
registry untouched. -/
def bind_output {V F : Type} (ctx : SchedCtx V F) (node : NodeData)
    (reg : List (Nat × Option V)) (p : TensorArg × V) : List (Nat × Option V) :=
  if (alookup ctx.dep p.1.key).isSome then
    match alookup ctx.M (node.id, p.1.key, false) with
    | some r =>
      if r ∈ ctx.unchangeable then reg
      else if r ∈ ctx.instantiate then reg
      else dinsert reg r (some p.2)
    | none => reg
  else reg

/-- ExgrReplayManager.run_op on one node: a missing callable returns at
once; otherwise the produced outputs are zipped against the declared output
tensors and each tracked output that is neither unchangeable-intermediate
nor must-instantiate is bound into the working registry. -/
def run_op {V F : Type} (ctx : SchedCtx V F) (reg : List (Nat × Option V))
    (node : NodeData) : List (Nat × Option V) :=
  match alookup ctx.funcs node.id with
  | none => reg
  | some fc =>
    match fc.1 with
    | none => reg
    | some _ =>
      let outputs : List V := if fc.2 == 0 then [] else ctx.exec node reg
      (node.outputs.zip outputs).foldl (bind_output ctx node) reg

/-- One iteration of the benchTime execution loop: run every node of the
execution order once, threading the working registry. -/
def run_iteration {V F : Type} (ctx : SchedCtx V F) (nodes : List NodeData)
    (reg : List (Nat × Option V)) : List (Nat × Option V) :=
  nodes.foldl (run_op ctx) reg

/-- The benchTime execution loop, i iterations from a starting working
registry.  The per-iteration self.reset_registry() call is commented out in
the source, so no registry derivation happens between iterations. -/
def bench_loop {V F : Type} (ctx : SchedCtx V F) (nodes : List NodeData) :
    Nat → List (Nat × Option V) → List (Nat × Option V)
  | 0, reg => reg
  | i + 1, reg => bench_loop ctx nodes i (run_iteration ctx nodes reg)

/-- The working registry at the start of iteration i of benchTime: the
single reset_registry call at the end of preprocess_graph derives it from
the permanent registry, after which the iterations simply thread it. -/
def benchTime_registry {V F : Type} (ctx : SchedCtx V F) (cudaMove : V → V)
    (twd : Bool) (tensor_device : List (Nat × String)) (cpu_tensor : List Nat)
    (perm : List (Nat × Option V)) (nodes : List NodeData) (i : Nat) :
    List (Nat × Option V) :=
  bench_loop ctx nodes i (reset_registry cudaMove twd tensor_device cpu_tensor perm)

/-- Extraction of a successful extract result (test scenarios only reach
the ok case). -/
def exOf {F : Type} (e : Except String (ExtractState F)) : ExtractState F :=
  match e with
  | Except.ok s => s
  | Except.error _ => extract_init

/-- Trivial fbgemm builder for scenarios without fbgemm nodes. -/
def bffU : NodeData → Unit × Unit × Nat := fun _ => ((), (), 1)

/-- Resolver that resolves every node to a callable with one output. -/
def btfOk : NodeData → Option Unit × Nat := fun _ => (some (), 1)

/-- Resolver that fails on every node (no callable). -/
def btfNone : NodeData → Option Unit × Nat := fun _ => (none, 1)

/-- Operator semantics producing the single tensor value 42. -/
def exec42 : NodeData → List (Nat × Option Nat) → List Nat := fun _ _ => [42]

/-- Operator semantics producing the single tensor value 9. -/
def exec9 : NodeData → List (Nat × Option Nat) → List Nat := fun _ _ => [9]

/-- Value synthesis that always produces the value 5. -/
def synth5 : String → List Nat → Option Nat := fun _ _ => some 5

/-- Trivial fbgemm input generator. -/
def genF0 : NodeData → Nat → Nat := fun _ _ => 0

/-- Trivial offsets post-processing. -/
def offsetFixId : NodeData → Nat → Nat := fun _ v => v

/-- Trivial device move. -/
def cudaId : Nat → Nat := fun v => v

/-- A shared tensor argument of identity key 7 and shape [2]. -/
def argK7 : TensorArg := ⟨"Tensor(float)", 7, "cpu", [2]⟩

/-- A structural root node wrapper for the scenario trees. -/
def mkRoot (cs : List ENode) : ENode :=
  ENode.mk ⟨0, "[pytorch|profiler|execution_graph|process]", false, false, false, false, 0, [], []⟩ cs

/-- Scenario 1 consumer: node 1 reads key 7 before anything produces it. -/
def nodeA : NodeData := ⟨1, "aten::add", true, false, false, false, 1, [argK7], []⟩

/-- Scenario 1 producer: node 2 later writes key 7 with the same shape. -/
def nodeB : NodeData := ⟨2, "aten::mul", true, false, false, false, 1, [], [argK7]⟩

/-- Scenario 1 trace: key 7 is consumed before it is produced. -/
def tree1 : ENode := mkRoot [ENode.mk nodeA [], ENode.mk nodeB []]

/-- Scenario 1 extract state. -/
def ex1 : ExtractState Unit := exOf (extract_subgraph bffU btfOk tree1)

/-- Scenario 1 analysis result. -/
def an1 : AnalysisState × SimState :=
  analyze_tensors true ex1.dependency_permanent ex1.sorted_nodes

/-- Scenario 1 allocator context. -/
def ctxA1 : AllocCtx Nat :=
  ⟨genF0, synth5, offsetFixId, ex1.dependency_permanent, an1.1.tensors_mapping,
    an1.2.instantiate⟩

/-- Scenario 1 allocation result. -/
def al1 : AllocState Nat := allocate_tensors ctxA1 ex1.sorted_nodes

/-- Scenario 1 scheduler context. -/
def sch1 : SchedCtx Nat Unit :=
  ⟨exec9, ex1.funcs, ex1.dependency_permanent, an1.1.tensors_mapping,
    al1.unchangeable_intermediate_tensors, an1.2.instantiate⟩

/-- Scenario 1 working registry after the preprocessing reset. -/
def reg1 : List (Nat × Option Nat) :=
  reset_registry cudaId true an1.1.tensor_device al1.cpu_tensor
    al1.tensor_registry_permanent

/-- Scenario 2 producer: node 1 writes key 7. -/
def nodeP : NodeData := ⟨1, "aten::mm", true, false, false, false, 1, [], [argK7]⟩

/-- Scenario 2 consumer: node 2 reads key 7 after it was produced. -/
def nodeQ : NodeData := ⟨2, "aten::relu", true, false, false, false, 1, [argK7], []⟩

/-- Scenario 2 trace: key 7 is produced before it is consumed. -/
def tree2 : ENode := mkRoot [ENode.mk nodeP [], ENode.mk nodeQ []]

/-- Scenario 2 extract state. -/
def ex2 : ExtractState Unit := exOf (extract_subgraph bffU btfOk tree2)

/-- Scenario 2 analysis result. -/
def an2 : AnalysisState × SimState :=
  analyze_tensors true ex2.dependency_permanent ex2.sorted_nodes

/-- Scenario 2 allocator context. -/
def ctxA2 : AllocCtx Nat :=
  ⟨genF0, synth5, offsetFixId, ex2.dependency_permanent, an2.1.tensors_mapping,
    an2.2.instantiate⟩

/-- Scenario 2 allocation result. -/
def al2 : AllocState Nat := allocate_tensors ctxA2 ex2.sorted_nodes

/-- Scenario 2 scheduler context. -/
def sch2 : SchedCtx Nat Unit :=
  ⟨exec42, ex2.funcs, ex2.dependency_permanent, an2.1.tensors_mapping,
    al2.unchangeable_intermediate_tensors, an2.2.instantiate⟩

/-- Scenario 3 node: qualified but with no resolvable implementation. -/
def nodeX : NodeData := ⟨1, "aten::weird", true, false, false, false, 1, [], []⟩

/-- Scenario 3 trace: a single unresolvable operator node. -/
def tree3 : ENode := mkRoot [ENode.mk nodeX []]

/-- Scenario 3 extract state (resolution fails on node 1). -/
def ex3 : ExtractState Unit := exOf (extract_subgraph bffU btfNone tree3)

/-- Scenario 4 embedding weight input, key 1. -/
def argW : TensorArg := ⟨"Tensor(float)", 1, "cpu", [4, 3]⟩

/-- Scenario 4 embedding indices input, key 2. -/
def argI : TensorArg := ⟨"Tensor(long)", 2, "cpu", [4]⟩

/-- Scenario 4 embedding offsets input, key 3. -/
def argO : TensorArg := ⟨"Tensor(long)", 3, "cpu", [2]⟩

/-- Scenario 4 embedding output, key 9. -/
def argE : TensorArg := ⟨"Tensor(float)", 9, "cpu", [2, 3]⟩

/-- Scenario 4 embedding-bag node with three inputs and one output. -/
def nodeE : NodeData :=
  ⟨1, "aten::embedding_bag", true, false, false, false, 4, [argW, argI, argO], [argE]⟩

/-- Scenario 4 consumer of the embedding output. -/
def nodeR : NodeData := ⟨2, "aten::relu", true, false, false, false, 1, [argE], []⟩

/-- Scenario 4 trace: an embedding-bag operator and a consumer. -/
def tree4 : ENode := mkRoot [ENode.mk nodeE [], ENode.mk nodeR []]

/-- Scenario 4 extract state. -/
def ex4 : ExtractState Unit := exOf (extract_subgraph bffU btfOk tree4)

/-- Scenario 4 analysis result. -/
def an4 : AnalysisState × SimState :=
  analyze_tensors true ex4.dependency_permanent ex4.sorted_nodes

/-- Scenario 4 allocator context. -/
def ctxA4 : AllocCtx Nat :=
  ⟨genF0, synth5, offsetFixId, ex4.dependency_permanent, an4.1.tensors_mapping,
    an4.2.instantiate⟩

/-- Scenario 4 allocation result. -/
def al4 : AllocState Nat := allocate_tensors ctxA4 ex4.sorted_nodes

/-- Scenario 4 scheduler context. -/
def sch4 : SchedCtx Nat Unit :=
  ⟨exec9, ex4.funcs, ex4.dependency_permanent, an4.1.tensors_mapping,
    al4.unchangeable_intermediate_tensors, an4.2.instantiate⟩

/-- Scenario 4 working registry after the preprocessing reset. -/
def reg4 : List (Nat × Option Nat) :=
  reset_registry cudaId true an4.1.tensor_device al4.cpu_tensor
    al4.tensor_registry_permanent

/-- Scenario 3 scheduler context (unresolvable operator). -/
def sch3 : SchedCtx Nat Unit :=
  ⟨exec9, ex3.funcs, ex3.dependency_permanent, [], [], []⟩

/-- Scenario 1 first occurrence: the input of node 1 on key 7. -/
def o1C : Occ := ⟨1, 7, [2], true, "cpu"⟩

/-- Scenario 1 second occurrence: the output of node 2 on key 7. -/
def o2C : Occ := ⟨2, 7, [2], false, "cpu"⟩

/-- Invariant of the DFS extraction state: every already selected
non-fbgemm node whose operator resolution failed is tallied in
actual_skip_nodes and, as long as the selected node ids are unique, its
funcs entry holds a null callable with the resolver output count. -/
def skipRecorded {F : Type} (btf : NodeData → Option F × Nat)
    (s : ExtractState F) : Prop :=
  ∀ d, d ∈ s.sorted_nodes → d.fbgemm_forward = false →
    d.fbgemm_backward = false → (btf d).1 = none →
    d.name ∈ s.actual_skip_nodes
    ∧ ((s.sorted_nodes.map (fun x => x.id)).Nodup →
        alookup s.funcs d.id = some (none, (btf d).2))

/-- Invariant of the identity-resolution state: the shapes recorded per
key are pairwise distinct; every recorded (id, shape) pair has its id
within the mint counter and its shape in the replay shape registry; a key
is marked seen exactly when it has recorded shapes; and all assigned and
registered ids are within the mint counter. -/
def AInv (s : AnalysisState) : Prop :=
  (∀ k, ((shapesOf s.tensor_shapes k).map (fun p => p.2)).Nodup)
  ∧ (∀ k p, p ∈ shapesOf s.tensor_shapes k →
      p.1 ≤ s.replay_unique_tensor_num
      ∧ alookup s.replay_tensors_shapes p.1 = some p.2)
  ∧ (∀ k, k ∈ s.original_unique_tensors ↔ shapesOf s.tensor_shapes k ≠ [])
  ∧ (∀ t r, alookup s.tensors_mapping t = some r → r ≤ s.replay_unique_tensor_num)
  ∧ (∀ r, (alookup s.replay_tensors_shapes r).isSome → r ≤ s.replay_unique_tensor_num)

/-!
Basic lemmas about the dict and set models.
-/

theorem alookup_cons {K V : Type} [DecidableEq K] (a : K) (b : V)
    (l : List (K × V)) (k : K) :
    alookup ((a, b) :: l) k = if a = k then some b else alookup l k := by
  by_cases h : a = k <;> simp [alookup, List.find?_cons, h]

theorem alookup_dinsert_self {K V : Type} [DecidableEq K] (l : List (K × V))
    (k : K) (v : V) : alookup (dinsert l k v) k = some v := by
  induction l with
  | nil => simp [dinsert, alookup_cons]
  | cons p rest ih =>
    obtain ⟨a, b⟩ := p
    by_cases h : a = k <;> simp [dinsert, h, alookup_cons, ih]

theorem alookup_dinsert_ne {K V : Type} [DecidableEq K] (l : List (K × V))
    (k k' : K) (v : V) (h : k' ≠ k) :
    alookup (dinsert l k v) k' = alookup l k' := by
  have hk : k ≠ k' := Ne.symm h
  induction l with
  | nil =>
    rw [show dinsert ([] : List (K × V)) k v = [(k, v)] from rfl, alookup_cons]
    simp [hk]
  | cons p rest ih =>
    obtain ⟨a, b⟩ := p
    by_cases ha : a = k
    · subst ha
      rw [show dinsert ((a, b) :: rest) a v = (a, v) :: rest from by simp [dinsert],
        alookup_cons, alookup_cons]
      simp [hk]
    · rw [show dinsert ((a, b) :: rest) k v = (a, b) :: dinsert rest k v from by
        simp [dinsert, ha], alookup_cons, ih, alookup_cons]

theorem alookup_dinsert_cases {K V : Type} [DecidableEq K] {l : List (K × V)}
    {k k' : K} {v w : V} (h : alookup (dinsert l k v) k' = some w) :
    (k' = k ∧ w = v) ∨ alookup l k' = some w := by
  by_cases hk : k' = k
  · subst hk
    rw [alookup_dinsert_self] at h
    exact Or.inl ⟨rfl, (Option.some.injEq _ _ ▸ h).symm⟩
  · rw [alookup_dinsert_ne l k k' v hk] at h
    exact Or.inr h

theorem mem_setAdd {A : Type} [DecidableEq A] (l : List A) (a b : A) :
    a ∈ setAdd l b ↔ a = b ∨ a ∈ l := by
  by_cases h : b ∈ l
  · simp only [setAdd, if_pos h]
    constructor
    · exact Or.inr
    · rintro (rfl | hm)
      · exact h
      · exact hm
  · simp [setAdd, if_neg h]

theorem mem_setAdd_of_mem {A : Type} [DecidableEq A] {l : List A} {a : A}
    (b : A) (h : a ∈ l) : a ∈ setAdd l b :=
  (mem_setAdd l a b).mpr (Or.inr h)

theorem self_mem_setAdd {A : Type} [DecidableEq A] (l : List A) (b : A) :
    b ∈ setAdd l b :=
  (mem_setAdd l b b).mpr (Or.inl rfl)

theorem foldl_inv {σ A : Type} (f : σ → A → σ) (P : σ → Prop)
    (h : ∀ s a, P s → P (f s a)) :
    ∀ (l : List A) (s : σ), P s → P (l.foldl f s)
  | [], _, hs => hs
  | a :: l, s, hs => foldl_inv f P h l (f s a) (h s a hs)

/-!
Lemmas about the stable sort used by extract_subgraph.
-/

theorem insert_by_id_perm (d : NodeData) (l : List NodeData) :
    (insert_by_id d l).Perm (d :: l) := by
  induction l with
  | nil => simp [insert_by_id]
  | cons e rest ih =>
    simp only [insert_by_id]
    by_cases h : e.id < d.id
    · simp only [if_pos h]
      exact (ih.cons e).trans (List.Perm.swap d e rest)
    · simp [if_neg h]

theorem insert_by_id_pairwise (d : NodeData) (l : List NodeData)
    (h : List.Pairwise (fun a b => a.id ≤ b.id) l) :
    List.Pairwise (fun a b => a.id ≤ b.id) (insert_by_id d l) := by
  induction l with
  | nil => simp [insert_by_id]
  | cons e rest ih =>
    rcases List.pairwise_cons.mp h with ⟨he, hrest⟩
    simp only [insert_by_id]
    by_cases hlt : e.id < d.id
    · simp only [if_pos hlt]
      refine List.pairwise_cons.mpr ⟨?_, ih hrest⟩
      intro x hx
      have hx2 := (insert_by_id_perm d rest).mem_iff.mp hx
      rcases List.mem_cons.mp hx2 with rfl | hx3
      · exact Nat.le_of_lt hlt
      · exact he x hx3
    · simp only [if_neg hlt]
      refine List.pairwise_cons.mpr ⟨?_, h⟩
      intro x hx
      rcases List.mem_cons.mp hx with rfl | hx2
      · exact Nat.le_of_not_lt hlt
      · exact Nat.le_trans (Nat.le_of_not_lt hlt) (he x hx2)

theorem sort_by_id_perm (l : List NodeData) : (sort_by_id l).Perm l := by
  induction l with
  | nil => simp [sort_by_id]
  | cons d rest ih =>
    exact (insert_by_id_perm d (sort_by_id rest)).trans (ih.cons d)

theorem sort_by_id_pairwise (l : List NodeData) :
    List.Pairwise (fun a b => a.id ≤ b.id) (sort_by_id l) := by
  induction l with
  | nil => simp [sort_by_id]
  | cons d rest ih => exact insert_by_id_pairwise d (sort_by_id rest) ih

/-!
Lemmas about the Scheduler binding step and the execution loop.
-/

theorem bind_output_eq_some {V F : Type} (ctx : SchedCtx V F)
    (node : NodeData) (reg : List (Nat × Option V)) (p : TensorArg × V)
    (r2 : Nat) (ht : (alookup ctx.dep p.1.key).isSome = true)
    (hm : alookup ctx.M (node.id, p.1.key, false) = some r2) :
    bind_output ctx node reg p
      = if r2 ∈ ctx.unchangeable then reg
        else if r2 ∈ ctx.instantiate then reg
        else dinsert reg r2 (some p.2) := by
  unfold bind_output
  rw [if_pos ht, hm]

theorem bind_output_eq_nolookup {V F : Type} (ctx : SchedCtx V F)
    (node : NodeData) (reg : List (Nat × Option V)) (p : TensorArg × V)
    (ht : (alookup ctx.dep p.1.key).isSome = true)
    (hm : alookup ctx.M (node.id, p.1.key, false) = none) :
    bind_output ctx node reg p = reg := by
  unfold bind_output
  rw [if_pos ht, hm]

theorem bind_output_eq_untracked {V F : Type} (ctx : SchedCtx V F)
    (node : NodeData) (reg : List (Nat × Option V)) (p : TensorArg × V)
    (ht : ¬ (alookup ctx.dep p.1.key).isSome = true) :
    bind_output ctx node reg p = reg := by
  unfold bind_output
  rw [if_neg ht]

theorem bind_output_preserves {V F : Type} (ctx : SchedCtx V F)
    (node : NodeData) (r : Nat)
    (h : r ∈ ctx.unchangeable ∨ r ∈ ctx.instantiate) (reg : List (Nat × Option V))
    (p : TensorArg × V) :
    alookup (bind_output ctx node reg p) r = alookup reg r := by
  by_cases ht : (alookup ctx.dep p.1.key).isSome = true
  · cases hm : alookup ctx.M (node.id, p.1.key, false) with
    | none => rw [bind_output_eq_nolookup ctx node reg p ht hm]
    | some r2 =>
      rw [bind_output_eq_some ctx node reg p r2 ht hm]
      by_cases h1 : r2 ∈ ctx.unchangeable
      · rw [if_pos h1]
      · rw [if_neg h1]
        by_cases h2 : r2 ∈ ctx.instantiate
        · rw [if_pos h2]
        · rw [if_neg h2]
          have hne : r ≠ r2 := by
            rintro rfl
            rcases h with h | h
            · exact h1 h
            · exact h2 h
          exact alookup_dinsert_ne reg r2 r (some p.2) hne
  · rw [bind_output_eq_untracked ctx node reg p ht]

theorem bind_output_changed {V F : Type} (ctx : SchedCtx V F)
    (node : NodeData) (r : Nat) (reg : List (Nat × Option V))
    (p : TensorArg × V)
    (h : alookup (bind_output ctx node reg p) r ≠ alookup reg r) :
    (alookup ctx.dep p.1.key).isSome = true
      ∧ alookup ctx.M (node.id, p.1.key, false) = some r
      ∧ r ∉ ctx.unchangeable ∧ r ∉ ctx.instantiate := by
  by_cases ht : (alookup ctx.dep p.1.key).isSome = true
  · cases hm : alookup ctx.M (node.id, p.1.key, false) with
    | none => rw [bind_output_eq_nolookup ctx node reg p ht hm] at h; exact absurd rfl h
    | some r2 =>
      rw [bind_output_eq_some ctx node reg p r2 ht hm] at h
      by_cases h1 : r2 ∈ ctx.unchangeable
      · rw [if_pos h1] at h; exact absurd rfl h
      · rw [if_neg h1] at h
        by_cases h2 : r2 ∈ ctx.instantiate
        · rw [if_pos h2] at h; exact absurd rfl h
        · rw [if_neg h2] at h
          by_cases hr : r = r2
          · refine ⟨ht, congrArg some hr.symm, ?_, ?_⟩
            · rw [hr]; exact h1
            · rw [hr]; exact h2
          · rw [alookup_dinsert_ne reg r2 r (some p.2) hr] at h
            exact absurd rfl h
  · rw [bind_output_eq_untracked ctx node reg p ht] at h
    exact absurd rfl h

theorem foldl_bind_changed {V F : Type} (ctx : SchedCtx V F) (node : NodeData)
    (r : Nat) :
    ∀ (l : List (TensorArg × V)) (reg : List (Nat × Option V)),
      alookup (l.foldl (bind_output ctx node) reg) r ≠ alookup reg r →
      ∃ p ∈ l, (alookup ctx.dep p.1.key).isSome = true
        ∧ alookup ctx.M (node.id, p.1.key, false) = some r
        ∧ r ∉ ctx.unchangeable ∧ r ∉ ctx.instantiate
  | [], reg, h => absurd rfl h
  | p :: l, reg, h => by
    by_cases hs : alookup (bind_output ctx node reg p) r = alookup reg r
    · have h2 : alookup (l.foldl (bind_output ctx node) (bind_output ctx node reg p)) r
          ≠ alookup (bind_output ctx node reg p) r := by
        rw [hs]
        exact h
      obtain ⟨q, hq, hcond⟩ := foldl_bind_changed ctx node r l (bind_output ctx node reg p) h2
      exact ⟨q, List.mem_cons_of_mem p hq, hcond⟩
    · exact ⟨p, List.mem_cons_self p l, bind_output_changed ctx node r reg p hs⟩

theorem run_op_preserves_flagged {V F : Type} (ctx : SchedCtx V F)
    (reg : List (Nat × Option V)) (node : NodeData) (r : Nat)
    (h : r ∈ ctx.unchangeable ∨ r ∈ ctx.instantiate) :
    alookup (run_op ctx reg node) r = alookup reg r := by
  unfold run_op
  cases alookup ctx.funcs node.id with
  | none => rfl
  | some fc =>
    obtain ⟨fo, cnt⟩ := fc
    cases fo with
    | none => rfl
    | some f =>
      exact foldl_inv (bind_output ctx node)
        (fun reg2 => alookup reg2 r = alookup reg r)
        (fun reg2 p hp => (bind_output_preserves ctx node r h reg2 p).trans hp)
        _ reg rfl

theorem run_op_changed {V F : Type} (ctx : SchedCtx V F)
    (reg : List (Nat × Option V)) (node : NodeData) (r : Nat)
    (h : alookup (run_op ctx reg node) r ≠ alookup reg r) :
    ∃ a ∈ node.outputs, (alookup ctx.dep a.key).isSome = true
      ∧ alookup ctx.M (node.id, a.key, false) = some r
      ∧ r ∉ ctx.unchangeable ∧ r ∉ ctx.instantiate := by
  unfold run_op at h
  cases hf : alookup ctx.funcs node.id with
  | none => rw [hf] at h; exact absurd rfl h
  | some fc =>
    rw [hf] at h
    obtain ⟨fo, cnt⟩ := fc
    cases fo with
    | none => exact absurd rfl h
    | some f =>
      obtain ⟨p, hp, hcond⟩ := foldl_bind_changed ctx node r _ reg h
      exact ⟨p.1, (List.of_mem_zip hp).1, hcond⟩

theorem run_iteration_preserves_flagged {V F : Type} (ctx : SchedCtx V F)
    (nodes : List NodeData) (reg : List (Nat × Option V)) (r : Nat)
    (h : r ∈ ctx.unchangeable ∨ r ∈ ctx.instantiate) :
    alookup (run_iteration ctx nodes reg) r = alookup reg r := by
  exact foldl_inv (run_op ctx) (fun reg2 => alookup reg2 r = alookup reg r)
    (fun reg2 node2 hp => (run_op_preserves_flagged ctx reg2 node2 r h).trans hp)
    nodes reg rfl

theorem bench_loop_succ {V F : Type} (ctx : SchedCtx V F)
    (nodes : List NodeData) :
    ∀ (i : Nat) (reg : List (Nat × Option V)),
      bench_loop ctx nodes (i + 1) reg
        = run_iteration ctx nodes (bench_loop ctx nodes i reg)
  | 0, _ => rfl
  | i + 1, reg => by
    show bench_loop ctx nodes (i + 1) (run_iteration ctx nodes reg)
      = run_iteration ctx nodes (bench_loop ctx nodes (i + 1) reg)
    rw [bench_loop_succ ctx nodes i (run_iteration ctx nodes reg)]
    rfl

theorem bench_loop_preserves_flagged {V F : Type} (ctx : SchedCtx V F)
    (nodes : List NodeData) (reg : List (Nat × Option V)) (r : Nat)
    (h : r ∈ ctx.unchangeable ∨ r ∈ ctx.instantiate) :
    ∀ i, alookup (bench_loop ctx nodes i reg) r = alookup reg r := by
  intro i
  induction i with
  | zero => rfl
  | succ i ih =>
    rw [bench_loop_succ ctx nodes i reg,
      run_iteration_preserves_flagged ctx nodes _ r h, ih]

/-!
Lemmas about registry reset.
-/

theorem reset_registry_step_permanent {V : Type} (cudaMove : V → V)
    (s : RegistryState V) :
    (reset_registry_step cudaMove s).tensor_registry_permanent
      = s.tensor_registry_permanent := rfl

theorem reset_registry_step_twice {V : Type} (cudaMove : V → V)
    (s : RegistryState V) :
    (reset_registry_step cudaMove (reset_registry_step cudaMove s)).tensor_registry
      = (reset_registry_step cudaMove s).tensor_registry := rfl

/-- C9: reset_registry never mutates the Permanent Registry, and iterated
resets with no intervening permanent-registry writes are idempotent: after
n+1 resets the Working Registry equals the one after the first reset,
whatever the device placement function does. -/
theorem C9_reset_registry_idempotent {V : Type} (cudaMove : V → V)
    (n : Nat) (s : RegistryState V) :
    (reset_registry_iter cudaMove (n + 1) s).tensor_registry_permanent
        = s.tensor_registry_permanent
    ∧ (reset_registry_iter cudaMove (n + 1) s).tensor_registry
        = (reset_registry_step cudaMove s).tensor_registry := by
  induction n generalizing s with
  | zero => exact ⟨rfl, rfl⟩
  | succ n ih =>
    have h := ih (reset_registry_step cudaMove s)
    exact ⟨h.1.trans (reset_registry_step_permanent cudaMove s),
      h.2.trans (reset_registry_step_twice cudaMove s)⟩

/-- C3 (amended): the Working Registry is derived from the Permanent
Registry once, by the reset_registry call at the end of preprocess_graph;
the benchTime loop performs no per-iteration rebuild, so the registry at
the start of iteration i+1 is the previous iteration result carried over
rather than a fresh copy of the golden baseline. -/
theorem C3_registry_carried_over {V F : Type} (ctx : SchedCtx V F)
    (cudaMove : V → V) (twd : Bool) (tensor_device : List (Nat × String))
    (cpu_tensor : List Nat) (perm : List (Nat × Option V))
    (nodes : List NodeData) (i : Nat) :
    benchTime_registry ctx cudaMove twd tensor_device cpu_tensor perm nodes 0
        = reset_registry cudaMove twd tensor_device cpu_tensor perm
    ∧ benchTime_registry ctx cudaMove twd tensor_device cpu_tensor perm nodes (i + 1)
        = run_iteration ctx nodes
            (benchTime_registry ctx cudaMove twd tensor_device cpu_tensor perm nodes i) :=
  ⟨rfl, bench_loop_succ ctx nodes i _⟩

/-- C3 counterexample: in scenario 2 the working registry at the start of
iteration 1 differs from the registry rebuilt from the permanent one: node
1 bound value 42 to replay tensor id 1 during iteration 0 and nothing
reset it, so iterations do not restart from the golden baseline. -/
theorem C3_counterexample :
    benchTime_registry sch2 cudaId true an2.1.tensor_device al2.cpu_tensor
        al2.tensor_registry_permanent ex2.sorted_nodes 1
      ≠ reset_registry cudaId true an2.1.tensor_device al2.cpu_tensor
        al2.tensor_registry_permanent := by decide

/-- C4: the run_op output-binding step leaves registry entries of
unchangeable-intermediate or must-instantiate replay tensor ids unchanged;
any entry it does change belongs to a tracked declared output flagged
neither way (bound by overwriting); and an unchangeable-intermediate entry
keeps its value across any number of iterations of the execution loop. -/
theorem C4_output_binding_policy {V F : Type} (ctx : SchedCtx V F)
    (reg : List (Nat × Option V)) (node : NodeData) (nodes : List NodeData)
    (r : Nat) :
    ((r ∈ ctx.unchangeable ∨ r ∈ ctx.instantiate) →
      alookup (run_op ctx reg node) r = alookup reg r)
    ∧ (alookup (run_op ctx reg node) r ≠ alookup reg r →
      ∃ a ∈ node.outputs, (alookup ctx.dep a.key).isSome = true
        ∧ alookup ctx.M (node.id, a.key, false) = some r
        ∧ r ∉ ctx.unchangeable ∧ r ∉ ctx.instantiate)
    ∧ (r ∈ ctx.unchangeable →
      ∀ i, alookup (bench_loop ctx nodes i reg) r = alookup reg r) :=
  ⟨fun h => run_op_preserves_flagged ctx reg node r h,
   fun h => run_op_changed ctx reg node r h,
   fun h i => bench_loop_preserves_flagged ctx nodes reg r (Or.inl h) i⟩

/-- C4 witness: in scenario 4 replay tensor id 1 (an embedding-bag seeded
input) is unchangeable, so running the embedding node and three full
iterations leaves its registry entry untouched. -/
theorem C4_witness :
    alookup (run_op sch4 reg4 nodeE) 1 = alookup reg4 1
    ∧ alookup (bench_loop sch4 ex4.sorted_nodes 3 reg4) 1 = alookup reg4 1 :=
  ⟨(C4_output_binding_policy sch4 reg4 nodeE ex4.sorted_nodes 1).1
      (Or.inl (by decide)),
   (C4_output_binding_policy sch4 reg4 nodeE ex4.sorted_nodes 1).2.2
      (by decide) 3⟩

/-- C5 (amended): a replay tensor id that is must-instantiate and later
also produced as an operator output is NOT rebound by the Scheduler even
when it is not flagged unchangeable-intermediate: run_op leaves its working
registry entry unchanged, so the seeded value is retained rather than
overwritten. -/
theorem C5_seeded_write_blocked {V F : Type} (ctx : SchedCtx V F)
    (reg : List (Nat × Option V)) (node : NodeData) (r : Nat)
    (h1 : r ∈ ctx.instantiate) (h2 : r ∉ ctx.unchangeable) :
    alookup (run_op ctx reg node) r = alookup reg r :=
  run_op_preserves_flagged ctx reg node r (Or.inr h1)

/-- C5 witness: scenario 1, node 2 produces an output bound to the seeded
must-instantiate id 1; its registry entry is unchanged. -/
theorem C5_witness : alookup (run_op sch1 reg1 nodeB) 1 = alookup reg1 1 :=
  C5_seeded_write_blocked sch1 reg1 nodeB 1 (by decide) (by decide)

/-- C5 counterexample: in scenario 1 replay tensor id 1 is must-instantiate
(seeded to 5), not unchangeable, and node 2 produces output value 9 mapped
to it; the claim says the write lands, but run_op keeps the seeded value. -/
theorem C5_counterexample :
    1 ∈ sch1.instantiate ∧ 1 ∉ sch1.unchangeable
    ∧ alookup sch1.M (2, 7, false) = some 1
    ∧ alookup reg1 1 = some (some 5)
    ∧ alookup (run_op sch1 reg1 nodeB) 1 = some (some 5)
    ∧ ¬ alookup (run_op sch1 reg1 nodeB) 1 = some (some 9) := by decide

/-- C1 counterexample: in scenario 1 replay tensor id 1 is consumed before
it is produced and later produced again, so it lies in both the
must-instantiate set and the produced-by-execution set: the two sets are
not disjoint. -/
theorem C1_counterexample :
    1 ∈ (analyze_tensors true ex1.dependency_permanent ex1.sorted_nodes).2.instantiate
    ∧ 1 ∈ (analyze_tensors true ex1.dependency_permanent ex1.sorted_nodes).2.output_set := by
  decide

/-- C2 counterexample: in scenario 3 node 1 is qualified but has no
resolvable implementation; extraction succeeds and tallies it as skipped,
yet the node is still present in sorted_nodes, so it is not excluded from
the ordered execution list. -/
theorem C2_counterexample :
    extract_subgraph bffU btfNone tree3 = Except.ok ex3
    ∧ ex3.sorted_nodes = [nodeX]
    ∧ ex3.actual_skip_nodes = ["aten::weird"]
    ∧ ex3.actual_skip_nodes_cnt = 1 :=
  ⟨rfl, by decide, by decide, by decide⟩

/-- C8 counterexample: in scenario 4 the embedding-bag output occurrence
has replay tensor id 4, which the Allocator does not flag
unchangeable-intermediate; only the seeded inputs (ids 1, 2, 3) are
flagged, so outputs of the specialized family are not flagged as such. -/
theorem C8_counterexample :
    nodeE.name = "aten::embedding_bag"
    ∧ nodeE ∈ ex4.sorted_nodes
    ∧ alookup an4.1.tensors_mapping (1, 9, false) = some 4
    ∧ 4 ∉ al4.unchangeable_intermediate_tensors
    ∧ 1 ∈ al4.unchangeable_intermediate_tensors := by decide

theorem extract_subgraph_ok {F : Type} (bff : NodeData → F × F × Nat)
    (btf : NodeData → Option F × Nat) (t : ENode) (st : ExtractState F)
    (h : extract_subgraph bff btf t = Except.ok st) :
    ∃ s0, dfs_children bff btf extract_init t.children = Except.ok s0
      ∧ st = { s0 with sorted_nodes := sort_by_id s0.sorted_nodes } := by
  unfold extract_subgraph at h
  cases hd : dfs_children bff btf extract_init t.children with
  | error e => rw [hd] at h; cases h
  | ok s0 =>
    rw [hd] at h
    refine ⟨s0, rfl, ?_⟩
    cases h
    rfl

/-- C7: after a successful extract_subgraph the execution order is sorted
ascending by node id (strictly ascending when the trace node ids are
unique, as stable trace identifiers are), and re-running the Flattener on
the same trace yields the identical result. -/
theorem C7_execution_order {F : Type} (bff : NodeData → F × F × Nat)
    (btf : NodeData → Option F × Nat) (t : ENode) (st : ExtractState F)
    (h : extract_subgraph bff btf t = Except.ok st) :
    List.Pairwise (fun a b => a ≤ b) (st.sorted_nodes.map (fun d => d.id))
    ∧ ((st.sorted_nodes.map (fun d => d.id)).Nodup →
        List.Pairwise (fun a b => a < b) (st.sorted_nodes.map (fun d => d.id)))
    ∧ ∀ st2, extract_subgraph bff btf t = Except.ok st2 → st2 = st := by
  obtain ⟨s0, hd, hst⟩ := extract_subgraph_ok bff btf t st h
  have hsorted :
      List.Pairwise (fun a b => a ≤ b) (st.sorted_nodes.map (fun d => d.id)) := by
    rw [hst]
    exact (List.pairwise_map).mpr (sort_by_id_pairwise s0.sorted_nodes)
  refine ⟨hsorted, ?_, ?_⟩
  · intro hnd
    exact (hsorted.and hnd).imp (fun hab => lt_of_le_of_ne hab.1 hab.2)
  · intro st2 h2
    injection h2.symm.trans h

/-- C7 witness: the scenario 2 extraction yields the strictly increasing
execution order of node ids 1 and 2. -/
theorem C7_witness :
    List.Pairwise (fun a b => a < b) (ex2.sorted_nodes.map (fun d => d.id)) :=
  (C7_execution_order bffU btfOk tree2 ex2 rfl).2.1 (by decide)

/-!
Lemmas for the resolution-failure bookkeeping of the Flattener.
-/

theorem dep_fold_fields {F : Type} :
    ∀ (args : List TensorArg) (s : ExtractState F),
      ((args.foldl (fun s a =>
          { s with dependency_permanent := dincr s.dependency_permanent a.key }) s).sorted_nodes
        = s.sorted_nodes)
      ∧ ((args.foldl (fun s a =>
          { s with dependency_permanent := dincr s.dependency_permanent a.key }) s).funcs
        = s.funcs)
      ∧ ((args.foldl (fun s a =>
          { s with dependency_permanent := dincr s.dependency_permanent a.key }) s).actual_skip_nodes
        = s.actual_skip_nodes)
  | [], _ => ⟨rfl, rfl, rfl⟩
  | a :: args, s =>
    dep_fold_fields args
      { s with dependency_permanent := dincr s.dependency_permanent a.key }

theorem build_func_ok_fields {F : Type} (bff : NodeData → F × F × Nat)
    (btf : NodeData → Option F × Nat) (s : ExtractState F) (d : NodeData)
    (r : ExtractState F × Option F × Nat)
    (h : build_func bff btf s d = Except.ok r) :
    r.1.sorted_nodes = s.sorted_nodes ∧ r.1.funcs = s.funcs
    ∧ (∀ x ∈ s.actual_skip_nodes, x ∈ r.1.actual_skip_nodes)
    ∧ (d.fbgemm_forward = false → d.fbgemm_backward = false →
        (btf d).1 = none →
        r.2.1 = none ∧ r.2.2 = (btf d).2 ∧ d.name ∈ r.1.actual_skip_nodes) := by
  unfold build_func at h
  dsimp only at h
  split at h
  case isTrue hff =>
    injection h with h
    subst h
    refine ⟨rfl, rfl, fun x hx => hx, fun hf _ _ => ?_⟩
    rw [hff] at hf
    cases hf
  case isFalse hff =>
    split at h
    case isTrue hfb =>
      split at h
      · cases h
      case h_2 p hp =>
        injection h with h
        subst h
        refine ⟨rfl, rfl, fun x hx => hx, fun _ hb _ => ?_⟩
        rw [hfb] at hb
        cases hb
    case isFalse hfb =>
      split at h
      case h_1 hnone =>
        injection h with h
        subst h
        refine ⟨rfl, rfl, fun x hx => List.mem_append_left _ hx, fun _ _ _ => ?_⟩
        exact ⟨rfl, rfl, List.mem_append_right _ (List.mem_singleton_self _)⟩
      case h_2 f hsome =>
        injection h with h
        subst h
        refine ⟨rfl, rfl, fun x hx => hx, fun _ _ hr => ?_⟩
        rw [hr] at hsome
        cases hsome

theorem skipRecorded_transfer {F : Type} (btf : NodeData → Option F × Nat)
    (s s2 : ExtractState F) (hsort : s2.sorted_nodes = s.sorted_nodes)
    (hfun : s2.funcs = s.funcs)
    (hskip : ∀ x ∈ s.actual_skip_nodes, x ∈ s2.actual_skip_nodes)
    (h : skipRecorded btf s) : skipRecorded btf s2 := by
  intro d hd hf hb hr
  rw [hsort] at hd
  obtain ⟨h1, h2⟩ := h d hd hf hb hr
  refine ⟨hskip _ h1, fun hnd => ?_⟩
  rw [hsort] at hnd
  rw [hfun]
  exact h2 hnd

theorem skipRecorded_qualified {F : Type} (btf : NodeData → Option F × Nat)
    (sOld : ExtractState F) (d : NodeData) (rst : ExtractState F)
    (fo : Option F) (cnt : Nat)
    (hsort : rst.sorted_nodes = sOld.sorted_nodes ++ [d])
    (hfun : rst.funcs = sOld.funcs)
    (hskip : ∀ x ∈ sOld.actual_skip_nodes, x ∈ rst.actual_skip_nodes)
    (hcond : d.fbgemm_forward = false → d.fbgemm_backward = false →
        (btf d).1 = none →
        fo = none ∧ cnt = (btf d).2 ∧ d.name ∈ rst.actual_skip_nodes)
    (h : skipRecorded btf sOld) :
    skipRecorded btf { rst with funcs := dinsert rst.funcs d.id (fo, cnt) } := by
  intro d2 hd2 hf hb hr
  have hd2b : d2 ∈ sOld.sorted_nodes ++ [d] := by
    rw [← hsort]
    exact hd2
  have hmap : ({ rst with funcs := dinsert rst.funcs d.id (fo, cnt) } :
      ExtractState F).sorted_nodes.map (fun x => x.id)
      = sOld.sorted_nodes.map (fun x => x.id) ++ [d.id] := by
    show rst.sorted_nodes.map (fun x => x.id) = _
    rw [hsort, List.map_append]
    rfl
  rcases List.mem_append.mp hd2b with hold | hnew
  · obtain ⟨h1, h2⟩ := h d2 hold hf hb hr
    refine ⟨hskip _ h1, fun hnd => ?_⟩
    rw [hmap] at hnd
    have hdisj := List.disjoint_of_nodup_append hnd
    have hne : d2.id ≠ d.id := by
      intro he
      exact hdisj (he ▸ List.mem_map_of_mem (fun x => x.id) hold)
        (List.mem_singleton_self _)
    show alookup (dinsert rst.funcs d.id (fo, cnt)) d2.id = _
    rw [alookup_dinsert_ne rst.funcs d.id d2.id (fo, cnt) hne, hfun]
    exact h2 ((List.nodup_append.mp hnd).1)
  · have hd2d : d2 = d := List.mem_singleton.mp hnew
    subst hd2d
    obtain ⟨hc1, hc2, hc3⟩ := hcond hf hb hr
    refine ⟨hc3, fun _ => ?_⟩
    show alookup (dinsert rst.funcs d2.id (fo, cnt)) d2.id = _
    rw [alookup_dinsert_self rst.funcs d2.id (fo, cnt), hc1, hc2]

mutual

theorem dfs_child_skipRecorded {F : Type} (bff : NodeData → F × F × Nat)
    (btf : NodeData → Option F × Nat) :
    ∀ (s : ExtractState F) (c : ENode) (s2 : ExtractState F),
      dfs_child bff btf s c = Except.ok s2 →
      skipRecorded btf s → skipRecorded btf s2
  | s, .mk d cs, s2, h, hs => by
    unfold dfs_child at h
    dsimp only at h
    split at h
    · injection h with h
      subst h
      exact skipRecorded_transfer btf s _ rfl rfl
        (fun x hx => List.mem_append_left _ hx) hs
    · split at h
      · split at h
        · cases h
        case h_2 r hbf =>
          injection h with h
          subst h
          have hdep := dep_fold_fields (F := F) d.inputs
            { s with
              sorted_nodes := s.sorted_nodes ++ [d],
              top_tensors := s.top_tensors ++
                [(d.id, (d.inputs ++ d.outputs).foldl (fun acc a => setAdd acc a.key) [])] }
          have hbff := build_func_ok_fields bff btf _ d r hbf
          refine skipRecorded_qualified btf s d r.1 r.2.1 r.2.2 ?_ ?_ ?_ ?_ hs
          · rw [hbff.1, hdep.1]
          · rw [hbff.2.1, hdep.2.1]
          · intro x hx
            refine hbff.2.2.1 x ?_
            rw [hdep.2.2]
            exact hx
          · intro hf hb hr
            exact ⟨(hbff.2.2.2 hf hb hr).1, (hbff.2.2.2 hf hb hr).2.1,
              (hbff.2.2.2 hf hb hr).2.2⟩
      · refine dfs_children_skipRecorded bff btf _ cs s2 h ?_
        by_cases hop : d.skips_op = true
        · rw [if_pos hop]
          exact skipRecorded_transfer btf s _ rfl rfl
            (fun x hx => List.mem_append_left _ hx) hs
        · rw [if_neg hop]
          exact hs

theorem dfs_children_skipRecorded {F : Type} (bff : NodeData → F × F × Nat)
    (btf : NodeData → Option F × Nat) :
    ∀ (s : ExtractState F) (l : List ENode) (s2 : ExtractState F),
      dfs_children bff btf s l = Except.ok s2 →
      skipRecorded btf s → skipRecorded btf s2
  | s, [], s2, h, hs => by
    unfold dfs_children at h
    injection h with h
    subst h
    exact hs
  | s, c :: rest, s2, h, hs => by
    unfold dfs_children at h
    split at h
    · cases h
    case h_2 s3 hc =>
      exact dfs_children_skipRecorded bff btf s3 rest s2 h
        (dfs_child_skipRecorded bff btf s c s3 hc hs)

end

/-- C2 (amended): a selected non-fbgemm node whose operator resolution
fails is tallied as skipped and the run does not abort, but the node is
retained in sorted_nodes rather than excluded: its funcs entry holds a
null callable (when node ids are unique) and run_op returns without
executing it. -/
theorem C2_resolution_failure {F : Type} (bff : NodeData → F × F × Nat)
    (btf : NodeData → Option F × Nat) (t : ENode) (st : ExtractState F)
    (h : extract_subgraph bff btf t = Except.ok st) (d : NodeData)
    (hd : d ∈ st.sorted_nodes) (hf : d.fbgemm_forward = false)
    (hb : d.fbgemm_backward = false) (hr : (btf d).1 = none) :
    d.name ∈ st.actual_skip_nodes
    ∧ ((st.sorted_nodes.map (fun x => x.id)).Nodup →
        alookup st.funcs d.id = some (none, (btf d).2)
        ∧ ∀ (V : Type) (exec : NodeData → List (Nat × Option V) → List V)
            (dep : List (Nat × Nat)) (M : List ((Nat × Nat × Bool) × Nat))
            (unch inst : List Nat) (reg : List (Nat × Option V)),
          run_op ⟨exec, st.funcs, dep, M, unch, inst⟩ reg d = reg) := by
  obtain ⟨s0, hdfs, hst⟩ := extract_subgraph_ok bff btf t st h
  have hrec : skipRecorded btf s0 :=
    dfs_children_skipRecorded bff btf extract_init t.children s0 hdfs
      (fun d2 hd2 _ _ _ => absurd hd2 (List.not_mem_nil d2))
  have hperm : st.sorted_nodes.Perm s0.sorted_nodes := by
    rw [hst]
    exact sort_by_id_perm s0.sorted_nodes
  have hd0 : d ∈ s0.sorted_nodes := hperm.mem_iff.mp hd
  obtain ⟨h1, h2⟩ := hrec d hd0 hf hb hr
  have hskips : st.actual_skip_nodes = s0.actual_skip_nodes := by
    rw [hst]
  have hfuncs : st.funcs = s0.funcs := by
    rw [hst]
  refine ⟨by rw [hskips]; exact h1, fun hnd => ?_⟩
  have hnd0 : (s0.sorted_nodes.map (fun x => x.id)).Nodup :=
    ((hperm.map (fun x => x.id)).nodup_iff).mp hnd
  have hlook : alookup st.funcs d.id = some (none, (btf d).2) := by
    rw [hfuncs]
    exact h2 hnd0
  refine ⟨hlook, fun V exec dep M unch inst reg => ?_⟩
  unfold run_op
  rw [show (⟨exec, st.funcs, dep, M, unch, inst⟩ :
      SchedCtx V F).funcs = st.funcs from rfl, hlook]

/-- C2 witness: scenario 3, the unresolvable node 1 is tallied, mapped to
a null callable, and run_op leaves the registry unchanged. -/
theorem C2_witness :
    nodeX.name ∈ ex3.actual_skip_nodes
    ∧ alookup ex3.funcs nodeX.id = some (none, 1)
    ∧ run_op sch3 [] nodeX = [] := by
  have h := C2_resolution_failure bffU btfNone tree3 ex3 rfl nodeX
    (by decide) (by decide) (by decide) (by decide)
  have h2 := h.2 (by decide)
  exact ⟨h.1, h2.1, h2.2 Nat exec9 ex3.dependency_permanent [] [] [] []⟩

/-!
Lemmas about the Identity Resolver (add_unique_tensor) invariant.
-/

theorem shapesOf_nil (k : Nat) : shapesOf [] k = [] := rfl

theorem shapesOf_shapesAdd_self (ts : List (Nat × List (Nat × List Nat)))
    (k : Nat) (e : Nat × List Nat) :
    shapesOf (shapesAdd ts k e) k = shapesOf ts k ++ [e] := by
  unfold shapesAdd shapesOf
  rw [alookup_dinsert_self]
  rfl

theorem shapesOf_shapesAdd_ne (ts : List (Nat × List (Nat × List Nat)))
    (k k' : Nat) (e : Nat × List Nat) (h : k' ≠ k) :
    shapesOf (shapesAdd ts k e) k' = shapesOf ts k' := by
  unfold shapesAdd shapesOf
  rw [alookup_dinsert_ne _ _ _ _ h]

theorem add_unique_tensor_mint (twd : Bool) (nid tid : Nat) (shape : List Nat)
    (inp : Bool) (dev : String) (s : AnalysisState)
    (h : ∀ p ∈ shapesOf s.tensor_shapes tid, p.2 ≠ shape) :
    (add_unique_tensor twd nid tid shape inp dev s).replay_unique_tensor_num
        = s.replay_unique_tensor_num + 1
    ∧ (add_unique_tensor twd nid tid shape inp dev s).tensors_mapping
        = dinsert s.tensors_mapping (nid, tid, inp) (s.replay_unique_tensor_num + 1)
    ∧ (add_unique_tensor twd nid tid shape inp dev s).replay_tensors_shapes
        = dinsert s.replay_tensors_shapes (s.replay_unique_tensor_num + 1) shape
    ∧ (add_unique_tensor twd nid tid shape inp dev s).tensor_shapes
        = shapesAdd s.tensor_shapes tid (s.replay_unique_tensor_num + 1, shape)
    ∧ (∀ k, k ∈ (add_unique_tensor twd nid tid shape inp dev s).original_unique_tensors
        ↔ (k ∈ s.original_unique_tensors ∨ k = tid)) := by
  by_cases hmem : tid ∈ s.original_unique_tensors
  · have hfind : (shapesOf s.tensor_shapes tid).find? (fun p => p.2 == shape) = none := by
      rw [List.find?_eq_none]
      intro p hp
      simpa using h p hp
    unfold add_unique_tensor
    rw [if_pos hmem, hfind]
    exact ⟨rfl, rfl, rfl, rfl,
      fun k => ⟨fun hk => Or.inl hk, fun hk => hk.elim id (fun he => he ▸ hmem)⟩⟩
  · unfold add_unique_tensor
    rw [if_neg hmem]
    refine ⟨rfl, rfl, rfl, rfl, fun k => ?_⟩
    show k ∈ setAdd s.original_unique_tensors tid ↔ _
    rw [mem_setAdd]
    exact or_comm

theorem add_unique_tensor_reuse (twd : Bool) (nid tid : Nat) (shape : List Nat)
    (inp : Bool) (dev : String) (s : AnalysisState) (r : Nat)
    (hnodup : ((shapesOf s.tensor_shapes tid).map (fun p => p.2)).Nodup)
    (horig : shapesOf s.tensor_shapes tid ≠ [] → tid ∈ s.original_unique_tensors)
    (hmem : (r, shape) ∈ shapesOf s.tensor_shapes tid) :
    add_unique_tensor twd nid tid shape inp dev s
      = { s with tensors_mapping := dinsert s.tensors_mapping (nid, tid, inp) r } := by
  have hne : shapesOf s.tensor_shapes tid ≠ [] := by
    intro he
    rw [he] at hmem
    exact (List.not_mem_nil _) hmem
  have htid := horig hne
  cases hfind : (shapesOf s.tensor_shapes tid).find? (fun p => p.2 == shape) with
  | none =>
    exfalso
    have := List.find?_eq_none.mp hfind (r, shape) hmem
    simp at this
  | some p =>
    have hp2 : p.2 = shape := by
      have := List.find?_some hfind
      simpa using this
    have hpmem := List.mem_of_find?_eq_some hfind
    have hpe : p = (r, shape) :=
      List.inj_on_of_nodup_map hnodup hpmem hmem (by rw [hp2])
    unfold add_unique_tensor
    rw [if_pos htid, hfind, hpe]

theorem AInv_init : AInv analysis_init := by
  refine ⟨fun k => ?_, fun k p hp => ?_, fun k => ?_, fun t r h => ?_, fun r h => ?_⟩
  · show (((shapesOf [] k).map (fun p => p.2)) : List (List Nat)).Nodup
    rw [shapesOf_nil]
    exact List.nodup_nil
  · rw [show shapesOf analysis_init.tensor_shapes k = [] from rfl] at hp
    exact absurd hp (List.not_mem_nil p)
  · constructor
    · intro hk
      exact absurd hk (List.not_mem_nil k)
    · intro hk
      exact absurd rfl hk
  · cases h
  · cases h

theorem AInv_step (twd : Bool) (s : AnalysisState) (o : Occ) (h : AInv s) :
    AInv (occ_step twd s o) := by
  obtain ⟨h1, h2, h3, h4, h5⟩ := h
  by_cases hre : ∃ r, (r, o.shape) ∈ shapesOf s.tensor_shapes o.key
  · obtain ⟨r, hr⟩ := hre
    have heq := add_unique_tensor_reuse twd o.node_id o.key o.shape o.input
      o.device s r (h1 o.key) (fun hne => (h3 o.key).mpr hne) hr
    unfold occ_step
    rw [heq]
    refine ⟨h1, h2, h3, fun t x hx => ?_, h5⟩
    rcases alookup_dinsert_cases hx with ⟨ht, hxr⟩ | hold
    · rw [hxr]
      exact (h2 o.key (r, o.shape) hr).1
    · exact h4 t x hold
  · push_neg at hre
    have hmint : ∀ p ∈ shapesOf s.tensor_shapes o.key, p.2 ≠ o.shape := by
      intro p hp he
      exact hre p.1 (by rw [← he]; exact hp)
    obtain ⟨hm1, hm2, hm3, hm4, hm5⟩ :=
      add_unique_tensor_mint twd o.node_id o.key o.shape o.input o.device s hmint
    unfold occ_step
    refine ⟨fun k => ?_, fun k p hp => ?_, fun k => ?_, fun t x hx => ?_,
      fun x hx => ?_⟩
    · rw [hm4]
      by_cases hk : k = o.key
      · subst hk
        rw [shapesOf_shapesAdd_self, List.map_append, List.nodup_append]
        refine ⟨h1 o.key, List.nodup_singleton _, ?_⟩
        intro sh hsh hsh2
        rw [show ((([(s.replay_unique_tensor_num + 1, o.shape)]).map
          (fun p => p.2)) = [o.shape]) from rfl] at hsh2
        have hsho : sh = o.shape := List.mem_singleton.mp hsh2
        obtain ⟨p, hp, hpe⟩ := List.mem_map.mp hsh
        exact hmint p hp (hpe.trans hsho)
      · rw [shapesOf_shapesAdd_ne _ _ _ _ hk]
        exact h1 k
    · rw [hm4] at hp
      by_cases hk : k = o.key
      · subst hk
        rw [shapesOf_shapesAdd_self] at hp
        rcases List.mem_append.mp hp with hold | hnew
        · have hb := h2 o.key p hold
          refine ⟨by rw [hm1]; exact Nat.le_succ_of_le hb.1, ?_⟩
          rw [hm3, alookup_dinsert_ne _ _ _ _
            (Nat.ne_of_lt (Nat.lt_succ_of_le hb.1))]
          exact hb.2
        · have hpe := List.mem_singleton.mp hnew
          subst hpe
          refine ⟨by rw [hm1], ?_⟩
          rw [hm3]
          exact alookup_dinsert_self _ _ _
      · rw [shapesOf_shapesAdd_ne _ _ _ _ hk] at hp
        have hb := h2 k p hp
        refine ⟨by rw [hm1]; exact Nat.le_succ_of_le hb.1, ?_⟩
        rw [hm3, alookup_dinsert_ne _ _ _ _
          (Nat.ne_of_lt (Nat.lt_succ_of_le hb.1))]
        exact hb.2
    · rw [hm4, hm5]
      by_cases hk : k = o.key
      · subst hk
        rw [shapesOf_shapesAdd_self]
        constructor
        · intro _ he
          exact absurd he (List.append_ne_nil_of_right_ne_nil _ (by simp))
        · intro _
          exact Or.inr rfl
      · rw [shapesOf_shapesAdd_ne _ _ _ _ hk]
        constructor
        · intro hor
          exact (h3 k).mp (hor.elim id (fun he => absurd he hk))
        · intro hne
          exact Or.inl ((h3 k).mpr hne)
    · rw [hm2] at hx
      rw [hm1]
      rcases alookup_dinsert_cases hx with ⟨_, rfl⟩ | hold
      · exact Nat.le_refl _
      · exact Nat.le_succ_of_le (h4 t x hold)
    · rw [hm3] at hx
      rw [hm1]
      by_cases hxe : x = s.replay_unique_tensor_num + 1
      · exact Nat.le_of_eq hxe
      · rw [alookup_dinsert_ne _ _ _ _ hxe] at hx
        exact Nat.le_succ_of_le (h5 x hx)

theorem AInv_fold (twd : Bool) (l : List Occ) (s : AnalysisState) (h : AInv s) :
    AInv (l.foldl (occ_step twd) s) :=
  foldl_inv (occ_step twd) AInv (fun s2 o hs => AInv_step twd s2 o hs) l s h

theorem AInv_occs_fold (twd : Bool) (l : List Occ) : AInv (occs_fold twd l) :=
  AInv_fold twd l analysis_init AInv_init

theorem occ_step_shapes_cases (twd : Bool) (s : AnalysisState) (o : Occ) :
    (occ_step twd s o).tensor_shapes = s.tensor_shapes
    ∨ ∃ e, (occ_step twd s o).tensor_shapes = shapesAdd s.tensor_shapes o.key e := by
  unfold occ_step add_unique_tensor
  by_cases hmem : o.key ∈ s.original_unique_tensors
  · rw [if_pos hmem]
    cases hfind : (shapesOf s.tensor_shapes o.key).find? (fun p => p.2 == o.shape) with
    | some p => exact Or.inl rfl
    | none => exact Or.inr ⟨_, rfl⟩
  · rw [if_neg hmem]
    exact Or.inr ⟨_, rfl⟩

theorem occ_step_rts_cases (twd : Bool) (s : AnalysisState) (o : Occ) :
    (occ_step twd s o).replay_tensors_shapes = s.replay_tensors_shapes
    ∨ (occ_step twd s o).replay_tensors_shapes
        = dinsert s.replay_tensors_shapes (s.replay_unique_tensor_num + 1) o.shape := by
  unfold occ_step add_unique_tensor
  by_cases hmem : o.key ∈ s.original_unique_tensors
  · rw [if_pos hmem]
    cases hfind : (shapesOf s.tensor_shapes o.key).find? (fun p => p.2 == o.shape) with
    | some p => exact Or.inl rfl
    | none => exact Or.inr rfl
  · rw [if_neg hmem]
    exact Or.inr rfl

theorem shapes_persist_step (twd : Bool) (s : AnalysisState) (o : Occ)
    (k : Nat) (p : Nat × List Nat) (hp : p ∈ shapesOf s.tensor_shapes k) :
    p ∈ shapesOf (occ_step twd s o).tensor_shapes k := by
  rcases occ_step_shapes_cases twd s o with he | ⟨e, he⟩
  · rw [he]
    exact hp
  · rw [he]
    by_cases hk : k = o.key
    · subst hk
      rw [shapesOf_shapesAdd_self]
      exact List.mem_append_left _ hp
    · rw [shapesOf_shapesAdd_ne _ _ _ _ hk]
      exact hp

theorem shapes_persist_fold (twd : Bool) (l : List Occ) (s : AnalysisState)
    (k : Nat) (p : Nat × List Nat) (hp : p ∈ shapesOf s.tensor_shapes k) :
    p ∈ shapesOf (l.foldl (occ_step twd) s).tensor_shapes k :=
  foldl_inv (occ_step twd) (fun s2 => p ∈ shapesOf s2.tensor_shapes k)
    (fun s2 o h2 => shapes_persist_step twd s2 o k p h2) l s hp

theorem rts_persist_step (twd : Bool) (s : AnalysisState) (o : Occ)
    (r : Nat) (sh : List Nat) (hinv : AInv s)
    (hr : alookup s.replay_tensors_shapes r = some sh) :
    alookup (occ_step twd s o).replay_tensors_shapes r = some sh := by
  rcases occ_step_rts_cases twd s o with he | he
  · rw [he]
    exact hr
  · rw [he, alookup_dinsert_ne]
    · exact hr
    · exact Nat.ne_of_lt (Nat.lt_succ_of_le
        (hinv.2.2.2.2 r (by rw [hr]; rfl)))

theorem rts_persist_fold (twd : Bool) (l : List Occ) (s : AnalysisState)
    (r : Nat) (sh : List Nat) (hinv : AInv s)
    (hr : alookup s.replay_tensors_shapes r = some sh) :
    alookup (l.foldl (occ_step twd) s).replay_tensors_shapes r = some sh :=
  (foldl_inv (occ_step twd)
    (fun s2 => AInv s2 ∧ alookup s2.replay_tensors_shapes r = some sh)
    (fun s2 o h2 => ⟨AInv_step twd s2 o h2.1, rts_persist_step twd s2 o r sh h2.1 h2.2⟩)
    l s ⟨hinv, hr⟩).2

theorem occ_step_assign_of_recorded (twd : Bool) (s : AnalysisState) (o : Occ)
    (r : Nat) (hinv : AInv s)
    (hmem : (r, o.shape) ∈ shapesOf s.tensor_shapes o.key) :
    alookup (occ_step twd s o).tensors_mapping (o.node_id, o.key, o.input)
      = some r := by
  have heq := add_unique_tensor_reuse twd o.node_id o.key o.shape o.input
    o.device s r (hinv.1 o.key) (fun hne => (hinv.2.2.1 o.key).mpr hne) hmem
  unfold occ_step
  rw [heq]
  exact alookup_dinsert_self _ _ _

theorem occ_step_assign_fresh (twd : Bool) (s : AnalysisState) (o : Occ)
    (h : ∀ p ∈ shapesOf s.tensor_shapes o.key, p.2 ≠ o.shape) :
    alookup (occ_step twd s o).tensors_mapping (o.node_id, o.key, o.input)
      = some (s.replay_unique_tensor_num + 1)
    ∧ (occ_step twd s o).replay_unique_tensor_num
      = s.replay_unique_tensor_num + 1 := by
  obtain ⟨hm1, hm2, hm3, hm4, hm5⟩ :=
    add_unique_tensor_mint twd o.node_id o.key o.shape o.input o.device s h
  unfold occ_step
  rw [hm2, hm1]
  exact ⟨alookup_dinsert_self _ _ _, rfl⟩

theorem occ_step_assigns (twd : Bool) (s : AnalysisState) (o : Occ)
    (hinv : AInv s) :
    ∃ r, alookup (occ_step twd s o).tensors_mapping (o.node_id, o.key, o.input)
        = some r
      ∧ (r, o.shape) ∈ shapesOf (occ_step twd s o).tensor_shapes o.key := by
  by_cases hre : ∃ r, (r, o.shape) ∈ shapesOf s.tensor_shapes o.key
  · obtain ⟨r, hr⟩ := hre
    exact ⟨r, occ_step_assign_of_recorded twd s o r hinv hr,
      shapes_persist_step twd s o o.key (r, o.shape) hr⟩
  · push_neg at hre
    have hmint : ∀ p ∈ shapesOf s.tensor_shapes o.key, p.2 ≠ o.shape := by
      intro p hp he
      exact hre p.1 (by rw [← he]; exact hp)
    obtain ⟨hm1, hm2, hm3, hm4, hm5⟩ :=
      add_unique_tensor_mint twd o.node_id o.key o.shape o.input o.device s hmint
    refine ⟨s.replay_unique_tensor_num + 1,
      (occ_step_assign_fresh twd s o hmint).1, ?_⟩
    unfold occ_step
    rw [hm4, shapesOf_shapesAdd_self]
    exact List.mem_append_right _ (List.mem_singleton_self _)

/-!
Flattening of the nested analyze_tensors loops into the occurrence fold.
-/

theorem arg_fold_occs (twd : Bool) (dep : List (Nat × Nat)) (nid : Nat)
    (inp : Bool) :
    ∀ (args : List TensorArg) (s : AnalysisState),
      args.foldl (analyze_arg_step twd dep nid inp) s
        = (((args.filter (fun a => (alookup dep a.key).isSome)).map
            (fun a => (⟨nid, a.key, a.shape, inp,
              if twd then a.device else "-1"⟩ : Occ))).foldl (occ_step twd) s)
  | [], _ => rfl
  | a :: args, s => by
    by_cases h : (alookup dep a.key).isSome = true
    · rw [List.foldl_cons, List.filter_cons, if_pos h, List.map_cons,
        List.foldl_cons]
      rw [show analyze_arg_step twd dep nid inp s a
          = occ_step twd s ⟨nid, a.key, a.shape, inp,
              if twd then a.device else "-1"⟩ from by
        unfold analyze_arg_step occ_step
        rw [if_pos h]]
      exact arg_fold_occs twd dep nid inp args _
    · rw [List.foldl_cons, List.filter_cons, if_neg h]
      rw [show analyze_arg_step twd dep nid inp s a = s from by
        unfold analyze_arg_step
        rw [if_neg h]]
      exact arg_fold_occs twd dep nid inp args s

theorem node_step_occs (twd : Bool) (dep : List (Nat × Nat)) (node : NodeData)
    (s : AnalysisState) :
    analyze_node_step twd dep s node
      = (node_occs twd dep node).foldl (occ_step twd) s := by
  unfold analyze_node_step node_occs
  rw [arg_fold_occs, arg_fold_occs, List.foldl_append]

theorem loop1_fold_occs (twd : Bool) (dep : List (Nat × Nat)) :
    ∀ (nodes : List NodeData) (s : AnalysisState),
      nodes.foldl (analyze_node_step twd dep) s
        = ((nodes.map (node_occs twd dep)).flatten).foldl (occ_step twd) s
  | [], _ => rfl
  | n :: nodes, s => by
    rw [List.foldl_cons, loop1_fold_occs twd dep nodes _, node_step_occs,
      List.map_cons, List.flatten_cons, List.foldl_append]

theorem analyze_loop1_eq (twd : Bool) (dep : List (Nat × Nat))
    (nodes : List NodeData) :
    analyze_loop1 twd dep nodes = occs_fold twd (all_occs twd dep nodes) := by
  unfold analyze_loop1 occs_fold all_occs
  exact loop1_fold_occs twd dep nodes analysis_init

theorem occs_fold_append (twd : Bool) (l1 l2 : List Occ) :
    occs_fold twd (l1 ++ l2) = l2.foldl (occ_step twd) (occs_fold twd l1) := by
  unfold occs_fold
  rw [List.foldl_append]

theorem shapes_mem_step (twd : Bool) (s : AnalysisState) (o : Occ)
    (hinv : AInv s) (k : Nat) (sh : List Nat) :
    sh ∈ (shapesOf (occ_step twd s o).tensor_shapes k).map (fun p => p.2)
    ↔ (sh ∈ (shapesOf s.tensor_shapes k).map (fun p => p.2)
        ∨ (o.key = k ∧ sh = o.shape)) := by
  by_cases hre : ∃ r, (r, o.shape) ∈ shapesOf s.tensor_shapes o.key
  · obtain ⟨r, hr⟩ := hre
    have heq := add_unique_tensor_reuse twd o.node_id o.key o.shape o.input
      o.device s r (hinv.1 o.key) (fun hne => (hinv.2.2.1 o.key).mpr hne) hr
    unfold occ_step
    rw [heq]
    show sh ∈ (shapesOf s.tensor_shapes k).map (fun p => p.2) ↔ _
    constructor
    · exact Or.inl
    · rintro (h | ⟨hkk, hsh⟩)
      · exact h
      · subst hkk
        rw [hsh]
        exact List.mem_map.mpr ⟨(r, o.shape), hr, rfl⟩
  · push_neg at hre
    have hmint : ∀ p ∈ shapesOf s.tensor_shapes o.key, p.2 ≠ o.shape := by
      intro p hp he
      exact hre p.1 (by rw [← he]; exact hp)
    obtain ⟨hm1, hm2, hm3, hm4, hm5⟩ :=
      add_unique_tensor_mint twd o.node_id o.key o.shape o.input o.device s hmint
    unfold occ_step
    rw [hm4]
    by_cases hk : k = o.key
    · subst hk
      rw [shapesOf_shapesAdd_self, List.map_append, List.mem_append]
      constructor
      · rintro (h | h)
        · exact Or.inl h
        · have : sh = o.shape := by simpa using h
          exact Or.inr ⟨rfl, this⟩
      · rintro (h | ⟨_, hsh⟩)
        · exact Or.inl h
        · exact Or.inr (by simpa using hsh)
    · rw [shapesOf_shapesAdd_ne _ _ _ _ hk]
      constructor
      · exact Or.inl
      · rintro (h | ⟨hkk, _⟩)
        · exact h
        · exact absurd hkk.symm hk

theorem shapes_mem_fold (twd : Bool) :
    ∀ (l : List Occ) (s : AnalysisState), AInv s → ∀ (k : Nat) (sh : List Nat),
      (sh ∈ (shapesOf (l.foldl (occ_step twd) s).tensor_shapes k).map (fun p => p.2))
      ↔ (sh ∈ (shapesOf s.tensor_shapes k).map (fun p => p.2)
          ∨ sh ∈ ((l.filter (fun o => o.key == k)).map (fun o => o.shape)))
  | [], s, _, k, sh => by simp
  | o :: l, s, hinv, k, sh => by
    rw [List.foldl_cons,
      shapes_mem_fold twd l (occ_step twd s o) (AInv_step twd s o hinv) k sh,
      shapes_mem_step twd s o hinv k sh, List.filter_cons]
    by_cases hk : (o.key == k) = true
    · rw [if_pos hk, List.map_cons, List.mem_cons]
      have hkk : o.key = k := by simpa using hk
      constructor
      · rintro ((h | ⟨_, hsh⟩) | h)
        · exact Or.inl h
        · exact Or.inr (Or.inl hsh)
        · exact Or.inr (Or.inr h)
      · rintro (h | (hsh | h))
        · exact Or.inl (Or.inl h)
        · exact Or.inl (Or.inr ⟨hkk, hsh⟩)
        · exact Or.inr h
    · rw [if_neg hk]
      have hkk : ¬ o.key = k := by simpa using hk
      constructor
      · rintro ((h | ⟨hke, _⟩) | h)
        · exact Or.inl h
        · exact absurd hke hkk
        · exact Or.inr h
      · rintro (h | h)
        · exact Or.inl (Or.inl h)
        · exact Or.inr h

theorem analyze_loop1_shape_count (twd : Bool) (dep : List (Nat × Nat))
    (nodes : List NodeData) (k : Nat) :
    (shapesOf (analyze_loop1 twd dep nodes).tensor_shapes k).length
      = (((all_occs twd dep nodes).filter (fun o => o.key == k)).map
          (fun o => o.shape)).dedup.length := by
  rw [analyze_loop1_eq]
  have hinv := AInv_occs_fold twd (all_occs twd dep nodes)
  have hnd := hinv.1 k
  have hmemiff : ∀ sh : List Nat,
      sh ∈ (shapesOf (occs_fold twd (all_occs twd dep nodes)).tensor_shapes k).map
        (fun p => p.2)
      ↔ sh ∈ (((all_occs twd dep nodes).filter (fun o => o.key == k)).map
          (fun o => o.shape)) := by
    intro sh
    have h := shapes_mem_fold twd (all_occs twd dep nodes) analysis_init
      AInv_init k sh
    rw [show ((all_occs twd dep nodes).foldl (occ_step twd) analysis_init)
        = occs_fold twd (all_occs twd dep nodes) from rfl] at h
    rw [h]
    constructor
    · rintro (hbad | hgood)
      · rw [show shapesOf analysis_init.tensor_shapes k = [] from rfl] at hbad
        exact absurd hbad (List.not_mem_nil sh)
      · exact hgood
    · exact Or.inr
  have hfs : ((shapesOf (occs_fold twd (all_occs twd dep nodes)).tensor_shapes k).map
        (fun p => p.2)).toFinset
      = (((all_occs twd dep nodes).filter (fun o => o.key == k)).map
          (fun o => o.shape)).toFinset := by
    ext x
    rw [List.mem_toFinset, List.mem_toFinset]
    exact hmemiff x
  calc (shapesOf (occs_fold twd (all_occs twd dep nodes)).tensor_shapes k).length
      = ((shapesOf (occs_fold twd (all_occs twd dep nodes)).tensor_shapes k).map
          (fun p => p.2)).length := (List.length_map _ _).symm
    _ = ((shapesOf (occs_fold twd (all_occs twd dep nodes)).tensor_shapes k).map
          (fun p => p.2)).toFinset.card := (List.toFinset_card_of_nodup hnd).symm
    _ = (((all_occs twd dep nodes).filter (fun o => o.key == k)).map
          (fun o => o.shape)).toFinset.card := by rw [hfs]
    _ = _ := List.card_toFinset _

/-- C6: for every tracked occurrence of the identity-resolution pass, a
shape already recorded for the occurrence key is assigned the replay tensor
id previously minted for that shape, while an unrecorded shape mints the
fresh id replay_unique_tensor_num + 1 (never assigned before); and the
number of replay tensor ids recorded under each key equals the number of
distinct shapes observed under that key. -/
theorem C6_identity_resolution (twd : Bool) (dep : List (Nat × Nat))
    (nodes : List NodeData) (pre post : List Occ) (o : Occ)
    (hsplit : all_occs twd dep nodes = pre ++ o :: post) :
    ((∀ r, (r, o.shape) ∈ shapesOf (occs_fold twd pre).tensor_shapes o.key →
        alookup (occ_step twd (occs_fold twd pre) o).tensors_mapping
          (o.node_id, o.key, o.input) = some r)
    ∧ ((∀ p ∈ shapesOf (occs_fold twd pre).tensor_shapes o.key, p.2 ≠ o.shape) →
        alookup (occ_step twd (occs_fold twd pre) o).tensors_mapping
          (o.node_id, o.key, o.input)
          = some ((occs_fold twd pre).replay_unique_tensor_num + 1)
        ∧ (∀ t, ¬ alookup (occs_fold twd pre).tensors_mapping t
            = some ((occs_fold twd pre).replay_unique_tensor_num + 1))))
    ∧ (∀ k, (shapesOf (analyze_loop1 twd dep nodes).tensor_shapes k).length
        = (((all_occs twd dep nodes).filter (fun x => x.key == k)).map
            (fun x => x.shape)).dedup.length) := by
  have hinv := AInv_occs_fold twd pre
  refine ⟨⟨?_, ?_⟩, fun k => analyze_loop1_shape_count twd dep nodes k⟩
  · intro r hr
    exact occ_step_assign_of_recorded twd _ o r hinv hr
  · intro hfresh
    refine ⟨(occ_step_assign_fresh twd _ o hfresh).1, ?_⟩
    intro t hc
    exact absurd (hinv.2.2.2.1 t _ hc) (Nat.not_succ_le_self _)

/-- C6 witness: in scenario 1 the second occurrence of key 7 has the
already recorded shape [2], so it is assigned the previously minted id 1,
and key 7 ends with exactly one recorded replay tensor id. -/
theorem C6_witness :
    alookup (occ_step true (occs_fold true [o1C]) o2C).tensors_mapping
        (2, 7, false) = some 1
    ∧ (shapesOf (analyze_loop1 true ex1.dependency_permanent
        ex1.sorted_nodes).tensor_shapes 7).length = 1 := by
  have h := C6_identity_resolution true ex1.dependency_permanent
    ex1.sorted_nodes [o1C] [] o2C (by decide)
  exact ⟨h.1.1 1 (by decide), by rw [h.2 7]; decide⟩

/-- C10: replay tensor ids are shared across the input and output roles of
the identity-resolution pass: a later occurrence whose identity key and
shape match an earlier occurrence is assigned the same replay tensor id
whatever the two roles are, and two occurrences under one key with
different shapes are assigned distinct replay tensor ids. -/
theorem C10_cross_role_ids (twd : Bool) (dep : List (Nat × Nat))
    (nodes : List NodeData) (pre mid post : List Occ) (o1 o2 : Occ)
    (hsplit : all_occs twd dep nodes = pre ++ o1 :: (mid ++ o2 :: post))
    (hk : o1.key = o2.key) :
    (o1.shape = o2.shape →
      ∃ r, alookup (occs_fold twd (pre ++ [o1])).tensors_mapping
            (o1.node_id, o1.key, o1.input) = some r
        ∧ alookup (occs_fold twd (pre ++ o1 :: (mid ++ [o2]))).tensors_mapping
            (o2.node_id, o2.key, o2.input) = some r)
    ∧ (o1.shape ≠ o2.shape →
      ∃ r1 r2, alookup (occs_fold twd (pre ++ [o1])).tensors_mapping
            (o1.node_id, o1.key, o1.input) = some r1
        ∧ alookup (occs_fold twd (pre ++ o1 :: (mid ++ [o2]))).tensors_mapping
            (o2.node_id, o2.key, o2.input) = some r2
        ∧ r1 ≠ r2) := by
  have hinv0 := AInv_occs_fold twd pre
  have hfold1 : occs_fold twd (pre ++ [o1])
      = occ_step twd (occs_fold twd pre) o1 := by
    rw [occs_fold_append]
    rfl
  have hfold2 : occs_fold twd (pre ++ o1 :: (mid ++ [o2]))
      = occ_step twd
          (mid.foldl (occ_step twd) (occ_step twd (occs_fold twd pre) o1)) o2 := by
    rw [occs_fold_append, List.foldl_cons, List.foldl_append]
    rfl
  obtain ⟨r1, hass1, hrec1⟩ := occ_step_assigns twd (occs_fold twd pre) o1 hinv0
  have hinv1 := AInv_step twd (occs_fold twd pre) o1 hinv0
  have hinv2 := AInv_fold twd mid (occ_step twd (occs_fold twd pre) o1) hinv1
  have hrec1b : (r1, o1.shape) ∈ shapesOf
      (mid.foldl (occ_step twd)
        (occ_step twd (occs_fold twd pre) o1)).tensor_shapes o1.key :=
    shapes_persist_fold twd mid (occ_step twd (occs_fold twd pre) o1)
      o1.key (r1, o1.shape) hrec1
  constructor
  · intro hsh
    refine ⟨r1, by rw [hfold1]; exact hass1, ?_⟩
    rw [hfold2]
    apply occ_step_assign_of_recorded twd _ o2 r1 hinv2
    rw [← hk, ← hsh]
    exact hrec1b
  · intro hsh
    obtain ⟨r2, hass2, hrec2⟩ := occ_step_assigns twd
      (mid.foldl (occ_step twd) (occ_step twd (occs_fold twd pre) o1)) o2 hinv2
    have hinv3 := AInv_step twd
      (mid.foldl (occ_step twd) (occ_step twd (occs_fold twd pre) o1)) o2 hinv2
    have hrec1c : (r1, o1.shape) ∈ shapesOf
        (occ_step twd
          (mid.foldl (occ_step twd)
            (occ_step twd (occs_fold twd pre) o1)) o2).tensor_shapes o1.key :=
      shapes_persist_step twd
        (mid.foldl (occ_step twd) (occ_step twd (occs_fold twd pre) o1)) o2
        o1.key (r1, o1.shape) hrec1b
    refine ⟨r1, r2, by rw [hfold1]; exact hass1, by rw [hfold2]; exact hass2, ?_⟩
    intro he
    have h1 := (hinv3.2.1 o1.key (r1, o1.shape) hrec1c).2
    have h2 := (hinv3.2.1 o2.key (r2, o2.shape) hrec2).2
    rw [he] at h1
    rw [h1] at h2
    exact hsh (Option.some.inj h2)

/-!
Lemmas about the lifetime simulation loop of analyze_tensors.
-/

theorem sim_arg_in_cases (dep : List (Nat × Nat))
    (M : List ((Nat × Nat × Bool) × Nat)) (nid : Nat) (st : SimState)
    (a : TensorArg) :
    sim_arg_in dep M nid st a = st
    ∨ ∃ r, alookup M (nid, a.key, true) = some r
        ∧ r ∉ st.output_set
        ∧ sim_arg_in dep M nid st a
            = { st with instantiate := setAdd st.instantiate r } := by
  unfold sim_arg_in
  by_cases ht : (alookup dep a.key).isSome = true
  · rw [if_pos ht]
    cases hm : alookup M (nid, a.key, true) with
    | none => exact Or.inl rfl
    | some r =>
      dsimp only
      by_cases ho : r ∈ st.output_set
      · rw [if_pos ho]
        exact Or.inl rfl
      · rw [if_neg ho]
        exact Or.inr ⟨r, rfl, ho, rfl⟩
  · rw [if_neg ht]
    exact Or.inl rfl

theorem sim_arg_out_cases (dep : List (Nat × Nat))
    (M : List ((Nat × Nat × Bool) × Nat)) (nid : Nat) (st : SimState)
    (a : TensorArg) :
    sim_arg_out dep M nid st a = st
    ∨ ∃ r, alookup M (nid, a.key, false) = some r
        ∧ sim_arg_out dep M nid st a
            = { st with output_set := setAdd st.output_set r } := by
  unfold sim_arg_out
  by_cases ht : (alookup dep a.key).isSome = true
  · rw [if_pos ht]
    cases hm : alookup M (nid, a.key, false) with
    | none => exact Or.inl rfl
    | some r =>
      dsimp only
      exact Or.inr ⟨r, rfl, rfl⟩
  · rw [if_neg ht]
    exact Or.inl rfl

theorem sim_arg_in_mono (dep : List (Nat × Nat))
    (M : List ((Nat × Nat × Bool) × Nat)) (nid : Nat) (st : SimState)
    (a : TensorArg) :
    (∀ x ∈ st.instantiate, x ∈ (sim_arg_in dep M nid st a).instantiate)
    ∧ (sim_arg_in dep M nid st a).output_set = st.output_set := by
  rcases sim_arg_in_cases dep M nid st a with he | ⟨r, _, _, he⟩ <;> rw [he]
  · exact ⟨fun x hx => hx, rfl⟩
  · exact ⟨fun x hx => mem_setAdd_of_mem r hx, rfl⟩

theorem sim_arg_out_mono (dep : List (Nat × Nat))
    (M : List ((Nat × Nat × Bool) × Nat)) (nid : Nat) (st : SimState)
    (a : TensorArg) :
    (sim_arg_out dep M nid st a).instantiate = st.instantiate
    ∧ (∀ x ∈ st.output_set, x ∈ (sim_arg_out dep M nid st a).output_set) := by
  rcases sim_arg_out_cases dep M nid st a with he | ⟨r, _, he⟩ <;> rw [he]
  · exact ⟨rfl, fun x hx => hx⟩
  · exact ⟨rfl, fun x hx => mem_setAdd_of_mem r hx⟩

theorem sim_in_fold_mono (dep : List (Nat × Nat))
    (M : List ((Nat × Nat × Bool) × Nat)) (nid : Nat) :
    ∀ (args : List TensorArg) (st : SimState),
      (∀ x ∈ st.instantiate,
        x ∈ (args.foldl (sim_arg_in dep M nid) st).instantiate)
      ∧ (args.foldl (sim_arg_in dep M nid) st).output_set = st.output_set
  | [], _ => ⟨fun _ hx => hx, rfl⟩
  | a :: args, st => by
    rw [List.foldl_cons]
    have h1 := sim_arg_in_mono dep M nid st a
    have h2 := sim_in_fold_mono dep M nid args (sim_arg_in dep M nid st a)
    exact ⟨fun x hx => h2.1 x (h1.1 x hx), h2.2.trans h1.2⟩

theorem sim_out_fold_mono (dep : List (Nat × Nat))
    (M : List ((Nat × Nat × Bool) × Nat)) (nid : Nat) :
    ∀ (args : List TensorArg) (st : SimState),
      ((args.foldl (sim_arg_out dep M nid) st).instantiate = st.instantiate)
      ∧ (∀ x ∈ st.output_set,
        x ∈ (args.foldl (sim_arg_out dep M nid) st).output_set)
  | [], _ => ⟨rfl, fun _ hx => hx⟩
  | a :: args, st => by
    rw [List.foldl_cons]
    have h1 := sim_arg_out_mono dep M nid st a
    have h2 := sim_out_fold_mono dep M nid args (sim_arg_out dep M nid st a)
    exact ⟨h2.1.trans h1.1, fun x hx => h2.2 x (h1.2 x hx)⟩

theorem sim_node_mono (dep : List (Nat × Nat))
    (M : List ((Nat × Nat × Bool) × Nat)) (node : NodeData) (st : SimState) :
    (∀ x ∈ st.instantiate, x ∈ (sim_node dep M st node).instantiate)
    ∧ (∀ x ∈ st.output_set, x ∈ (sim_node dep M st node).output_set) := by
  unfold sim_node
  have hin := sim_in_fold_mono dep M node.id node.inputs st
  have hout := sim_out_fold_mono dep M node.id node.outputs
    (node.inputs.foldl (sim_arg_in dep M node.id) st)
  constructor
  · intro x hx
    rw [hout.1]
    exact hin.1 x hx
  · intro x hx
    refine hout.2 x ?_
    rw [hin.2]
    exact hx

theorem sim_fold_mono (dep : List (Nat × Nat))
    (M : List ((Nat × Nat × Bool) × Nat)) :
    ∀ (nodes : List NodeData) (st : SimState),
      (∀ x ∈ st.instantiate, x ∈ (nodes.foldl (sim_node dep M) st).instantiate)
      ∧ (∀ x ∈ st.output_set, x ∈ (nodes.foldl (sim_node dep M) st).output_set)
  | [], _ => ⟨fun _ hx => hx, fun _ hx => hx⟩
  | n :: nodes, st => by
    rw [List.foldl_cons]
    have h1 := sim_node_mono dep M n st
    have h2 := sim_fold_mono dep M nodes (sim_node dep M st n)
    exact ⟨fun x hx => h2.1 x (h1.1 x hx), fun x hx => h2.2 x (h1.2 x hx)⟩

theorem sim_in_fold_hit (dep : List (Nat × Nat))
    (M : List ((Nat × Nat × Bool) × Nat)) (nid : Nat) :
    ∀ (args : List TensorArg) (st : SimState) (a : TensorArg) (r : Nat),
      a ∈ args → alookup M (nid, a.key, true) = some r →
      (alookup dep a.key).isSome = true →
      r ∈ (args.foldl (sim_arg_in dep M nid) st).instantiate
      ∨ r ∈ st.output_set
  | [], _, a, _, ha, _, _ => absurd ha (List.not_mem_nil a)
  | b :: args, st, a, r, ha, hm, ht => by
    rw [List.foldl_cons]
    rcases List.mem_cons.mp ha with hab | hmem
    · subst hab
      by_cases ho : r ∈ st.output_set
      · exact Or.inr ho
      · left
        have hstep : sim_arg_in dep M nid st a
            = { st with instantiate := setAdd st.instantiate r } := by
          unfold sim_arg_in
          rw [if_pos ht, hm]
          dsimp only
          rw [if_neg ho]
        rw [hstep]
        exact (sim_in_fold_mono dep M nid args _).1 r (self_mem_setAdd _ _)
    · rcases sim_in_fold_hit dep M nid args (sim_arg_in dep M nid st b) a r
        hmem hm ht with h | h
      · exact Or.inl h
      · right
        rw [← (sim_arg_in_mono dep M nid st b).2]
        exact h

theorem sim_out_fold_hit (dep : List (Nat × Nat))
    (M : List ((Nat × Nat × Bool) × Nat)) (nid : Nat) :
    ∀ (args : List TensorArg) (st : SimState) (a : TensorArg) (r : Nat),
      a ∈ args → alookup M (nid, a.key, false) = some r →
      (alookup dep a.key).isSome = true →
      r ∈ (args.foldl (sim_arg_out dep M nid) st).output_set
  | [], _, a, _, ha, _, _ => absurd ha (List.not_mem_nil a)
  | b :: args, st, a, r, ha, hm, ht => by
    rw [List.foldl_cons]
    rcases List.mem_cons.mp ha with hab | hmem
    · subst hab
      have hstep : sim_arg_out dep M nid st a
          = { st with output_set := setAdd st.output_set r } := by
        unfold sim_arg_out
        rw [if_pos ht, hm]
      rw [hstep]
      exact (sim_out_fold_mono dep M nid args _).2 r (self_mem_setAdd _ _)
    · exact sim_out_fold_hit dep M nid args (sim_arg_out dep M nid st b) a r
        hmem hm ht

theorem sim_node_hit_in (dep : List (Nat × Nat))
    (M : List ((Nat × Nat × Bool) × Nat)) (node : NodeData) (st : SimState)
    (a : TensorArg) (r : Nat) (ha : a ∈ node.inputs)
    (ht : (alookup dep a.key).isSome = true)
    (hm : alookup M (node.id, a.key, true) = some r) :
    r ∈ (sim_node dep M st node).instantiate
    ∨ r ∈ (sim_node dep M st node).output_set := by
  unfold sim_node
  rcases sim_in_fold_hit dep M node.id node.inputs st a r ha hm ht with h | h
  · left
    rw [(sim_out_fold_mono dep M node.id node.outputs _).1]
    exact h
  · right
    refine (sim_out_fold_mono dep M node.id node.outputs _).2 r ?_
    rw [(sim_in_fold_mono dep M node.id node.inputs st).2]
    exact h

theorem sim_node_hit_out (dep : List (Nat × Nat))
    (M : List ((Nat × Nat × Bool) × Nat)) (node : NodeData) (st : SimState)
    (a : TensorArg) (r : Nat) (ha : a ∈ node.outputs)
    (ht : (alookup dep a.key).isSome = true)
    (hm : alookup M (node.id, a.key, false) = some r) :
    r ∈ (sim_node dep M st node).output_set := by
  unfold sim_node
  exact sim_out_fold_hit dep M node.id node.outputs _ a r ha hm ht

theorem sim_loop_hit (dep : List (Nat × Nat))
    (M : List ((Nat × Nat × Bool) × Nat)) :
    ∀ (nodes : List NodeData) (st : SimState) (node : NodeData) (r : Nat),
      node ∈ nodes →
      ((∃ a ∈ node.inputs, (alookup dep a.key).isSome = true
          ∧ alookup M (node.id, a.key, true) = some r)
       ∨ (∃ a ∈ node.outputs, (alookup dep a.key).isSome = true
          ∧ alookup M (node.id, a.key, false) = some r)) →
      r ∈ (nodes.foldl (sim_node dep M) st).instantiate
      ∨ r ∈ (nodes.foldl (sim_node dep M) st).output_set
  | [], _, node, _, hn, _ => absurd hn (List.not_mem_nil node)
  | n :: nodes, st, node, r, hn, hocc => by
    rw [List.foldl_cons]
    rcases List.mem_cons.mp hn with he | hmem
    · subst he
      rcases hocc with ⟨a, ha, ht, hm⟩ | ⟨a, ha, ht, hm⟩
      · rcases sim_node_hit_in dep M node st a r ha ht hm with h | h
        · exact Or.inl ((sim_fold_mono dep M nodes _).1 r h)
        · exact Or.inr ((sim_fold_mono dep M nodes _).2 r h)
      · exact Or.inr ((sim_fold_mono dep M nodes _).2 r
          (sim_node_hit_out dep M node st a r ha ht hm))
    · exact sim_loop_hit dep M nodes (sim_node dep M st n) node r hmem hocc

theorem sim_node_sources (dep : List (Nat × Nat))
    (M : List ((Nat × Nat × Bool) × Nat)) (st : SimState) (node : NodeData)
    (h : (∀ y ∈ st.instantiate, ∃ t, alookup M t = some y)
      ∧ (∀ y ∈ st.output_set, ∃ t, alookup M t = some y)) :
    (∀ y ∈ (sim_node dep M st node).instantiate, ∃ t, alookup M t = some y)
    ∧ (∀ y ∈ (sim_node dep M st node).output_set, ∃ t, alookup M t = some y) := by
  unfold sim_node
  refine foldl_inv (sim_arg_out dep M node.id)
    (fun st2 => (∀ y ∈ st2.instantiate, ∃ t, alookup M t = some y)
      ∧ (∀ y ∈ st2.output_set, ∃ t, alookup M t = some y)) ?_ node.outputs _
    (foldl_inv (sim_arg_in dep M node.id)
      (fun st2 => (∀ y ∈ st2.instantiate, ∃ t, alookup M t = some y)
        ∧ (∀ y ∈ st2.output_set, ∃ t, alookup M t = some y)) ?_ node.inputs st h)
  · intro st3 a h3
    rcases sim_arg_out_cases dep M node.id st3 a with he | ⟨rr, hm, he⟩ <;> rw [he]
    · exact h3
    · refine ⟨h3.1, fun y hy => ?_⟩
      rcases (mem_setAdd _ y rr).mp hy with hyr | hym
      · exact ⟨(node.id, a.key, false), hyr ▸ hm⟩
      · exact h3.2 y hym
  · intro st3 a h3
    rcases sim_arg_in_cases dep M node.id st3 a with he | ⟨rr, hm, _, he⟩ <;> rw [he]
    · exact h3
    · refine ⟨fun y hy => ?_, h3.2⟩
      rcases (mem_setAdd _ y rr).mp hy with hyr | hym
      · exact ⟨(node.id, a.key, true), hyr ▸ hm⟩
      · exact h3.1 y hym

theorem sim_loop_sources (dep : List (Nat × Nat))
    (M : List ((Nat × Nat × Bool) × Nat)) (nodes : List NodeData) (x : Nat)
    (h : x ∈ (sim_loop dep M nodes).instantiate
      ∨ x ∈ (sim_loop dep M nodes).output_set) :
    ∃ t, alookup M t = some x := by
  have key := foldl_inv (sim_node dep M)
    (fun st2 => (∀ y ∈ st2.instantiate, ∃ t, alookup M t = some y)
      ∧ (∀ y ∈ st2.output_set, ∃ t, alookup M t = some y))
    (fun st2 node h2 => sim_node_sources dep M st2 node h2) nodes ⟨[], []⟩
    ⟨fun y hy => absurd hy (List.not_mem_nil y),
     fun y hy => absurd hy (List.not_mem_nil y)⟩
  rcases h with h | h
  · exact key.1 x h
  · exact key.2 x h

theorem occ_step_mapping_form (twd : Bool) (s : AnalysisState) (o : Occ) :
    ∃ v, (occ_step twd s o).tensors_mapping
      = dinsert s.tensors_mapping (o.node_id, o.key, o.input) v := by
  unfold occ_step add_unique_tensor
  by_cases hmem : o.key ∈ s.original_unique_tensors
  · rw [if_pos hmem]
    cases hfind : (shapesOf s.tensor_shapes o.key).find? (fun p => p.2 == o.shape) with
    | some p => exact ⟨p.1, rfl⟩
    | none => exact ⟨_, rfl⟩
  · rw [if_neg hmem]
    exact ⟨_, rfl⟩

theorem fold_mapping_occs (twd : Bool) :
    ∀ (l : List Occ) (s : AnalysisState) (t : Nat × Nat × Bool) (x : Nat),
      alookup ((l.foldl (occ_step twd) s).tensors_mapping) t = some x →
      (∃ o ∈ l, t = (o.node_id, o.key, o.input))
      ∨ alookup s.tensors_mapping t = some x
  | [], _, _, _, h => Or.inr h
  | o :: l, s, t, x, h => by
    rw [List.foldl_cons] at h
    rcases fold_mapping_occs twd l (occ_step twd s o) t x h with ⟨o2, ho2, he⟩ | hbase
    · exact Or.inl ⟨o2, List.mem_cons_of_mem o ho2, he⟩
    · obtain ⟨v, hv⟩ := occ_step_mapping_form twd s o
      rw [hv] at hbase
      rcases alookup_dinsert_cases hbase with ⟨he, _⟩ | hold
      · exact Or.inl ⟨o, List.mem_cons_self o l, he⟩
      · exact Or.inr hold

theorem all_occs_mem (twd : Bool) (dep : List (Nat × Nat))
    (nodes : List NodeData) (o : Occ) (ho : o ∈ all_occs twd dep nodes) :
    ∃ node ∈ nodes, o.node_id = node.id
      ∧ ((o.input = true ∧ ∃ a ∈ node.inputs,
          (alookup dep a.key).isSome = true ∧ a.key = o.key)
        ∨ (o.input = false ∧ ∃ a ∈ node.outputs,
          (alookup dep a.key).isSome = true ∧ a.key = o.key)) := by
  unfold all_occs at ho
  rw [List.mem_flatten] at ho
  obtain ⟨l, hl, hol⟩ := ho
  rw [List.mem_map] at hl
  obtain ⟨node, hnode, hle⟩ := hl
  subst hle
  refine ⟨node, hnode, ?_⟩
  unfold node_occs at hol
  rcases List.mem_append.mp hol with hin | hout
  · rw [List.mem_map] at hin
    obtain ⟨a, haf, hae⟩ := hin
    rw [List.mem_filter] at haf
    subst hae
    exact ⟨rfl, Or.inl ⟨rfl, a, haf.1, haf.2, rfl⟩⟩
  · rw [List.mem_map] at hout
    obtain ⟨a, haf, hae⟩ := hout
    rw [List.mem_filter] at haf
    subst hae
    exact ⟨rfl, Or.inr ⟨rfl, a, haf.1, haf.2, rfl⟩⟩

/-- C1 (amended): after analyze_tensors, the union of the must-instantiate
set and the produced-by-execution set is exactly the set of tracked replay
tensor ids (those assigned by the final tensors_mapping); the two sets
need not be disjoint, as an id consumed before being produced lies in
both. -/
theorem C1_lifetime_cover (twd : Bool) (dep : List (Nat × Nat))
    (nodes : List NodeData) (r : Nat) :
    (r ∈ (analyze_tensors twd dep nodes).2.instantiate
      ∨ r ∈ (analyze_tensors twd dep nodes).2.output_set)
    ↔ ∃ t, alookup (analyze_tensors twd dep nodes).1.tensors_mapping t
        = some r := by
  show (r ∈ (sim_loop dep (analyze_loop1 twd dep nodes).tensors_mapping
        nodes).instantiate
      ∨ r ∈ (sim_loop dep (analyze_loop1 twd dep nodes).tensors_mapping
        nodes).output_set)
    ↔ ∃ t, alookup (analyze_loop1 twd dep nodes).tensors_mapping t = some r
  constructor
  · intro h
    exact sim_loop_sources dep (analyze_loop1 twd dep nodes).tensors_mapping
      nodes r h
  · rintro ⟨t, ht⟩
    have ht2 := ht
    rw [analyze_loop1_eq] at ht2
    have hdom := fold_mapping_occs twd (all_occs twd dep nodes) analysis_init
      t r ht2
    rcases hdom with ⟨o, ho, hte⟩ | hbase
    · obtain ⟨node, hnode, hnid, hcase⟩ := all_occs_mem twd dep nodes o ho
      unfold sim_loop
      rcases hcase with ⟨hinp, a, ha, htr, hak⟩ | ⟨hinp, a, ha, htr, hak⟩
      · refine sim_loop_hit dep _ nodes ⟨[], []⟩ node r hnode
          (Or.inl ⟨a, ha, htr, ?_⟩)
        rw [show ((node.id, a.key, true) : Nat × Nat × Bool) = t from by
          rw [hte, ← hnid, hak, hinp]]
        exact ht
      · refine sim_loop_hit dep _ nodes ⟨[], []⟩ node r hnode
          (Or.inr ⟨a, ha, htr, ?_⟩)
        rw [show ((node.id, a.key, false) : Nat × Nat × Bool) = t from by
          rw [hte, ← hnid, hak, hinp]]
        exact ht
    · exact Option.noConfusion hbase

/-- C10 witness: in scenario 1 the input occurrence of node 1 and the
output occurrence of node 2 share key 7 and shape [2]; both are assigned
the same replay tensor id. -/
theorem C10_witness :
    ∃ r, alookup (occs_fold true ([] ++ [o1C])).tensors_mapping
          (1, 7, true) = some r
      ∧ alookup (occs_fold true ([] ++ o1C :: ([] ++ [o2C]))).tensors_mapping
          (2, 7, false) = some r :=
  (C10_cross_role_ids true ex1.dependency_permanent ex1.sorted_nodes
    [] [] [] o1C o2C (by decide) rfl).1 rfl

/-!
Lemmas about the Allocator flagging of unchangeable intermediates.
-/

theorem allocate_offsets_fix_unch {V : Type} (ctx : AllocCtx V)
    (node : NodeData) (s : AllocState V) :
    (allocate_offsets_fix ctx node s).unchangeable_intermediate_tensors
      = s.unchangeable_intermediate_tensors := by
  unfold allocate_offsets_fix
  split
  · cases h2 : node.inputs[2]? with
    | none => rfl
    | some a2 =>
      dsimp only
      cases h3 : alookup ctx.M (node.id, a2.key, true) with
      | none => rfl
      | some r2 =>
        dsimp only
        cases h4 : alookup s.tensor_registry_permanent r2 with
        | none => rfl
        | some ov =>
          cases ov with
          | none => rfl
          | some v => rfl
  · rfl

theorem allocate_input_unch {V : Type} (ctx : AllocCtx V) (node : NodeData)
    (s : AllocState V) (idx : Nat) (a : TensorArg) (r : Nat)
    (h : r ∈ (allocate_input ctx node s idx a).unchangeable_intermediate_tensors) :
    r ∈ s.unchangeable_intermediate_tensors
    ∨ (alookup ctx.M (node.id, a.key, true) = some r
      ∧ (node.name = "aten::embedding_bag"
        ∨ strOccursIn "fbgemm::split_embedding_codegen_lookup" node.name = true)) := by
  unfold allocate_input at h
  cases hm : alookup ctx.M (node.id, a.key, true) with
  | none =>
    rw [hm] at h
    exact Or.inl h
  | some rid =>
    rw [hm] at h
    dsimp only at h
    split at h
    case isTrue hcond =>
      split at h
      case isTrue hf =>
        split at h
        case isTrue hsub =>
          rcases (mem_setAdd _ r rid).mp h with hre | hold
          · exact Or.inr ⟨congrArg some hre.symm, Or.inr hsub⟩
          · exact Or.inl hold
        case isFalse _ => exact Or.inl h
      case isFalse hf =>
        cases hsynth : ctx.synth a.dtype a.shape with
        | some v =>
          rw [hsynth] at h
          dsimp only at h
          split at h
          case isTrue _ =>
            dsimp only at h
            split at h
            case isTrue hemb =>
              rcases (mem_setAdd _ r rid).mp h with hre | hold
              · exact Or.inr ⟨congrArg some hre.symm,
                  Or.inl (by simpa using hemb)⟩
              · exact Or.inl hold
            case isFalse _ => exact Or.inl h
          case isFalse _ =>
            split at h
            case isTrue hemb =>
              rcases (mem_setAdd _ r rid).mp h with hre | hold
              · exact Or.inr ⟨congrArg some hre.symm,
                  Or.inl (by simpa using hemb)⟩
              · exact Or.inl hold
            case isFalse _ => exact Or.inl h
        | none =>
          rw [hsynth] at h
          exact Or.inl h
    case isFalse _ => exact Or.inl h

theorem allocate_fold_unch {V : Type} (ctx : AllocCtx V) (node : NodeData) :
    ∀ (l : List (Nat × TensorArg)) (s : AllocState V) (r : Nat),
      r ∈ (l.foldl (fun s p => allocate_input ctx node s p.1 p.2)
          s).unchangeable_intermediate_tensors →
      r ∈ s.unchangeable_intermediate_tensors
      ∨ ∃ p ∈ l, alookup ctx.M (node.id, p.2.key, true) = some r
        ∧ (node.name = "aten::embedding_bag"
          ∨ strOccursIn "fbgemm::split_embedding_codegen_lookup" node.name = true)
  | [], _, _, h => Or.inl h
  | p :: l, s, r, h => by
    rw [List.foldl_cons] at h
    rcases allocate_fold_unch ctx node l (allocate_input ctx node s p.1 p.2) r h
      with hbase | ⟨q, hq, hc⟩
    · rcases allocate_input_unch ctx node s p.1 p.2 r hbase with h1 | h2
      · exact Or.inl h1
      · exact Or.inr ⟨p, List.mem_cons_self p l, h2⟩
    · exact Or.inr ⟨q, List.mem_cons_of_mem p hq, hc⟩

theorem allocate_node_unch {V : Type} (ctx : AllocCtx V) (node : NodeData)
    (s : AllocState V) (r : Nat)
    (h : r ∈ (allocate_node ctx s node).unchangeable_intermediate_tensors) :
    r ∈ s.unchangeable_intermediate_tensors
    ∨ ∃ a ∈ node.inputs, alookup ctx.M (node.id, a.key, true) = some r
      ∧ (node.name = "aten::embedding_bag"
        ∨ strOccursIn "fbgemm::split_embedding_codegen_lookup" node.name = true) := by
  unfold allocate_node at h
  rw [allocate_offsets_fix_unch] at h
  rcases allocate_fold_unch ctx node node.inputs.enum s r h with h1 | ⟨p, hp, hc⟩
  · exact Or.inl h1
  · refine Or.inr ⟨p.2, ?_, hc⟩
    have := List.mem_enum_iff_getElem?.mp hp
    exact List.getElem?_mem this

theorem allocate_tensors_fold_unch {V : Type} (ctx : AllocCtx V) :
    ∀ (nodes : List NodeData) (s : AllocState V) (r : Nat),
      r ∈ (nodes.foldl (allocate_node ctx) s).unchangeable_intermediate_tensors →
      r ∈ s.unchangeable_intermediate_tensors
      ∨ ∃ node ∈ nodes, ∃ a ∈ node.inputs,
          alookup ctx.M (node.id, a.key, true) = some r
          ∧ (node.name = "aten::embedding_bag"
            ∨ strOccursIn "fbgemm::split_embedding_codegen_lookup" node.name = true)
  | [], _, _, h => Or.inl h
  | n :: nodes, s, r, h => by
    rw [List.foldl_cons] at h
    rcases allocate_tensors_fold_unch ctx nodes (allocate_node ctx s n) r h
      with hbase | ⟨node, hn, hc⟩
    · rcases allocate_node_unch ctx n s r hbase with h1 | h2
      · exact Or.inl h1
      · exact Or.inr ⟨n, List.mem_cons_self n nodes, h2⟩
    · exact Or.inr ⟨node, List.mem_cons_of_mem n hn, hc⟩

/-- C8 (amended): every replay tensor id the Allocator flags
unchangeable-intermediate is the replay id of a (seeded) INPUT occurrence
of a specialized-family node (aten::embedding_bag or an
fbgemm::split_embedding_codegen_lookup operator); in particular the flags
come from inputs of such operators, not from their outputs.  Such a
flagged id, once seeded, is never overwritten by the output-binding step
of the Scheduler, across any number of iterations. -/
theorem C8_unchangeable_flags {V : Type} (ctx : AllocCtx V)
    (nodes : List NodeData) (r : Nat)
    (h : r ∈ (allocate_tensors ctx nodes).unchangeable_intermediate_tensors) :
    (∃ node ∈ nodes, ∃ a ∈ node.inputs,
      alookup ctx.M (node.id, a.key, true) = some r
      ∧ (node.name = "aten::embedding_bag"
        ∨ strOccursIn "fbgemm::split_embedding_codegen_lookup" node.name = true))
    ∧ ∀ (F : Type) (exec : NodeData → List (Nat × Option V) → List V)
        (funcs : List (Nat × (Option F × Nat))) (dep : List (Nat × Nat))
        (M2 : List ((Nat × Nat × Bool) × Nat)) (inst : List Nat)
        (reg : List (Nat × Option V)) (i : Nat),
      alookup (bench_loop
        (⟨exec, funcs, dep, M2,
          (allocate_tensors ctx nodes).unchangeable_intermediate_tensors, inst⟩ :
          SchedCtx V F) nodes i reg) r = alookup reg r := by
  constructor
  · rcases allocate_tensors_fold_unch ctx nodes alloc_init r h with h1 | h2
    · exact absurd h1 (List.not_mem_nil r)
    · exact h2
  · intro F exec funcs dep M2 inst reg i
    exact bench_loop_preserves_flagged _ nodes reg r (Or.inl h) i

/-- C8 witness: in scenario 4 the flagged id 1 comes from an input of the
embedding-bag node 1, and three iterations leave its registry entry
untouched. -/
theorem C8_witness :
    (∃ node ∈ ex4.sorted_nodes, ∃ a ∈ node.inputs,
      alookup ctxA4.M (node.id, a.key, true) = some 1
      ∧ (node.name = "aten::embedding_bag"
        ∨ strOccursIn "fbgemm::split_embedding_codegen_lookup" node.name = true))
    ∧ alookup (bench_loop
        (⟨exec9, ex4.funcs, ex4.dependency_permanent, an4.1.tensors_mapping,
          (allocate_tensors ctxA4 ex4.sorted_nodes).unchangeable_intermediate_tensors,
          an4.2.instantiate⟩ : SchedCtx Nat Unit) ex4.sorted_nodes 3 reg4) 1
      = alookup reg4 1 := by
  have h := C8_unchangeable_flags ctxA4 ex4.sorted_nodes 1 (by decide)
  exact ⟨h.1, h.2 Unit exec9 ex4.funcs ex4.dependency_permanent
    an4.1.tensors_mapping an4.2.instantiate reg4 3⟩

end ParamReplay
